import Mathlib

/-!
Verification development for the zoned-datetime picker plugin
(`src/utils/datetime.ts`, `src/utils/search.ts`, `src/utils/zoneOptions.ts`,
`src/utils/timezones.ts`, `src/ui/timeZoneAutocomplete.tsx`).

The TypeScript code delegates calendar and time-zone arithmetic to the Luxon
library and the ECMAScript runtime (`Intl`, `Date`).  The embedding therefore
contains, besides direct translations of the repository's functions, a model
of the fragment of Luxon/ECMAScript semantics those functions invoke:
the proleptic Gregorian calendar (`daysFromCivil`/`civilFromDays`, the
algorithms used by ECMAScript's `Date`), Luxon's local-time resolution
(`fixOffset` from luxon `src/datetime.js`), and Luxon's ISO printing
(`toISO` with `suppressMilliseconds`).  IANA zones are modelled as their
offset functions (minutes east of UTC, as a function of the UTC timestamp
in seconds), which is exactly the interface (`zone.offset(ts)`) Luxon uses.
-/

/- ===================== JS character/string helpers ===================== -/

/-- Characters treated as whitespace by JavaScript's `trim` and `\s`
(ASCII fragment: space, tab, LF, VT, FF, CR). -/
def isWsChar (c : Char) : Bool :=
  c = ' ' || c = '\t' || c = '\n' || c = '\x0b' || c = '\x0c' || c = '\r'

/-- ASCII digit test, as in the `\d` character class. -/
def isDig (c : Char) : Bool :=
  48 ≤ c.toNat && c.toNat ≤ 57

/-- Numeric value of an ASCII digit character. -/
def digVal (c : Char) : Int :=
  (c.toNat : Int) - 48

/-- The ASCII digit character for `n` (meaningful for `0 ≤ n ≤ 9`). -/
def digitChar (n : Int) : Char :=
  Char.ofNat (48 + n.toNat)

/-- Model of `String.prototype.trim`: drop whitespace from both ends. -/
def trimChars (l : List Char) : List Char :=
  ((l.dropWhile isWsChar).reverse.dropWhile isWsChar).reverse

/-- Substring test on character lists: does `hay` start with `needle`? -/
def leadsWith : List Char → List Char → Bool
  | [], _ => true
  | _ :: _, [] => false
  | n :: ns, h :: hs => n = h && leadsWith ns hs

/-- Model of `String.prototype.includes`: `needle` occurs in `hay`. -/
def hasSubstr (hay needle : List Char) : Bool :=
  match hay with
  | [] => needle.isEmpty
  | _ :: rest => leadsWith needle hay || hasSubstr rest needle

/-- Split `l` into the maximal runs of characters satisfying `keep`
(accumulator holds the current run, reversed).  This is the semantics of
`split` on the complementary separator class followed by
`filter(Boolean)`. -/
def splitRunsAux (keep : Char → Bool) : List Char → List Char → List (List Char)
  | [], cur => if cur.isEmpty then [] else [cur.reverse]
  | c :: rest, cur =>
    if keep c then splitRunsAux keep rest (c :: cur)
    else if cur.isEmpty then splitRunsAux keep rest []
    else cur.reverse :: splitRunsAux keep rest []

/-- Maximal runs of `keep`-characters of `l`, in order. -/
def splitRuns (keep : Char → Bool) (l : List Char) : List (List Char) :=
  splitRunsAux keep l []

/-- Join character-list words with single spaces. -/
def joinSpaces : List (List Char) → List Char
  | [] => []
  | [w] => w
  | w :: ws => w ++ ' ' :: joinSpaces ws

/- ===================== Gregorian calendar model ===================== -/

/-- Leap-year rule of the proleptic Gregorian calendar (ECMAScript `Date`,
Luxon `isLeapYear`). -/
def isLeapYear (y : Int) : Bool :=
  (y % 4 = 0 && y % 100 ≠ 0) || y % 400 = 0

/-- Days in a month of the proleptic Gregorian calendar (Luxon
`daysInMonth`, used by its unit-range validation). -/
def daysInMonth (y m : Int) : Int :=
  if m = 2 then (if isLeapYear y then 29 else 28)
  else if m = 4 ∨ m = 6 ∨ m = 9 ∨ m = 11 then 30
  else 31

/-- Days since 1970-01-01 of the first of March of the March-based year
`yy` (the year that starts `yy-03-01`).  Standard era/year-of-era
decomposition of the proleptic Gregorian calendar; `/` on `Int` is floor
division for these positive divisors, matching the mathematical floor the
ECMAScript specification uses. -/
def startOfMarchYear (yy : Int) : Int :=
  let era := yy / 400
  let yoe := yy - era * 400
  era * 146097 + yoe * 365 + yoe / 4 - yoe / 100 - 719468

/-- Days since 1970-01-01 of the Gregorian date `y-m-d` (the standard
days-from-civil computation; the calendar arithmetic behind ECMAScript's
`Date.UTC`, which Luxon's `objToLocalTS` calls). -/
def daysFromCivil (y m d : Int) : Int :=
  let yy := if m ≤ 2 then y - 1 else y
  let doy := (153 * (if 2 < m then m - 3 else m + 9) + 2) / 5 + d - 1
  startOfMarchYear yy + doy

/-- Century within an era (0..3) of a day-of-era (0..146096). -/
def civilCentury (doe : Int) : Int := (4 * doe + 3) / 146097

/-- Year within a century (0..99) of a day-of-century. -/
def civilYearOfCentury (doc : Int) : Int := (4 * doc + 3) / 1461

/-- March-based year and day-of-year of the day `z0` days after
1970-01-01 (era, then century, then year-of-century decomposition of the
proleptic Gregorian calendar). -/
def yoeDoyFromDays (z0 : Int) : Int × Int :=
  let z := z0 + 719468
  let era := z / 146097
  let doe := z - era * 146097
  let k := civilCentury doe
  let doc := doe - 36524 * k
  let j := civilYearOfCentury doc
  (era * 400 + 100 * k + j, doc - (365 * j + j / 4))

/-- Gregorian date `(y, m, d)` of the day `z0` days after 1970-01-01
(the calendar arithmetic behind ECMAScript's
`Date.prototype.getUTCFullYear/Month/Date`, which Luxon's `tsToObj`
calls; proved below to invert `daysFromCivil` on valid dates). -/
def civilFromDays (z0 : Int) : Int × Int × Int :=
  let p := yoeDoyFromDays z0
  let mp := (5 * p.2 + 2) / 153
  let d := p.2 - (153 * mp + 2) / 5 + 1
  let m := if mp < 10 then mp + 3 else mp - 9
  (if m ≤ 2 then p.1 + 1 else p.1, m, d)

/-- Wall-clock (or UTC) date-time components, the shape Luxon's
`GregorianUnits` object `{year, month, day, hour, minute, second}` takes in
the code paths used by this plugin (milliseconds are always zero here). -/
structure LocalDT where
  year : Int
  month : Int
  day : Int
  hour : Int
  minute : Int
  second : Int
deriving DecidableEq

/-- Luxon's unit-range validation for Gregorian components
(`hasInvalidGregorianData`), restricted to four-digit years, which is the
only year shape the plugin's regexes accept. -/
def validLocalDT (c : LocalDT) : Bool :=
  0 ≤ c.year && c.year ≤ 9999 &&
  1 ≤ c.month && c.month ≤ 12 &&
  1 ≤ c.day && c.day ≤ daysInMonth c.year c.month &&
  0 ≤ c.hour && c.hour ≤ 23 &&
  0 ≤ c.minute && c.minute ≤ 59 &&
  0 ≤ c.second && c.second ≤ 59

/-- Seconds since the epoch of components read as UTC (Luxon
`objToLocalTS`, via `Date.UTC`), in seconds rather than milliseconds. -/
def localSecs (c : LocalDT) : Int :=
  daysFromCivil c.year c.month c.day * 86400
    + c.hour * 3600 + c.minute * 60 + c.second

/-- Components, read as UTC, of an epoch timestamp in seconds (Luxon
`tsToObj`, via the `Date.prototype.getUTC*` accessors). -/
def secsToLocal (t : Int) : LocalDT :=
  let days := t / 86400
  let rem := t % 86400
  let ymd := civilFromDays days
  ⟨ymd.1, ymd.2.1, ymd.2.2, rem / 3600, (rem % 3600) / 60, rem % 60⟩

/- ===================== ISO 8601 printing (Luxon toISO) ===================== -/

/-- Two-digit zero-padded decimal (meaningful for `0 ≤ n ≤ 99`). -/
def pad2 (n : Int) : List Char :=
  [digitChar (n / 10), digitChar (n % 10)]

/-- Four-digit zero-padded decimal (meaningful for `0 ≤ n ≤ 9999`). -/
def pad4 (n : Int) : List Char :=
  [digitChar (n / 1000), digitChar ((n / 100) % 10),
   digitChar ((n / 10) % 10), digitChar (n % 10)]

/-- The `YYYY-MM-DDTHH:mm:ss` rendering of components: Luxon `toISO`
output with `suppressMilliseconds: true` (milliseconds are zero on every
path in this plugin), before the offset suffix. -/
def printLocalChars (c : LocalDT) : List Char :=
  pad4 c.year ++ '-' :: pad2 c.month ++ '-' :: pad2 c.day
    ++ 'T' :: pad2 c.hour ++ ':' :: pad2 c.minute ++ ':' :: pad2 c.second

/-- Luxon's ISO offset suffix: `Z` for the fixed zero-offset zone
(`FixedOffsetZone.utcInstance`, what the zone string "UTC" normalizes to),
otherwise `±HH:MM` of the offset in minutes. -/
def printOffsetChars (fixedZero : Bool) (o : Int) : List Char :=
  if fixedZero && o = 0 then ['Z']
  else
    let a := if o < 0 then -o else o
    (if o < 0 then '-' else '+') :: pad2 (a / 60) ++ ':' :: pad2 (a % 60)

/- ===================== ZonedValue and regex matchers ===================== -/

/-- `src/utils/datetime.ts` `ZonedValue`: wall-clock local datetime string
and IANA zone id, each possibly `null`/absent (both modelled as `none`). -/
structure ZonedValue where
  dateTime : Option String
  timeZone : Option String
deriving DecidableEq

/-- JavaScript truthiness of a `string | null` value: `null` and the empty
string are falsy. -/
def strTruthy : Option String → Bool
  | none => false
  | some s => !s.data.isEmpty

/-- One character of the `\\d` class: consume a digit. -/
def expectDigit (cs : List Char) : Option (Char × List Char) :=
  match cs with
  | c :: rest => if isDig c then some (c, rest) else none
  | _ => none

/-- One literal character of a regex: consume exactly `ch`. -/
def expectLit (ch : Char) (cs : List Char) : Option (List Char) :=
  match cs with
  | c :: rest => if c = ch then some rest else none
  | _ => none

/-- `\\d{2}`: consume two digits. -/
def expect2 (cs : List Char) : Option (Char × Char × List Char) :=
  match expectDigit cs with
  | none => none
  | some (a, r1) =>
    match expectDigit r1 with
    | none => none
    | some (b, r2) => some (a, b, r2)

/-- Matcher for the anchored regex `^(\\d{4}-\\d{2}-\\d{2}T\\d{2}:\\d{2}(?::\\d{2})?)`
(used in `parseIxdtf` and `parseDatoValue`), transcribed atom by atom: on
success returns the matched characters (16 or, greedily, 19) and the
remaining input. -/
def matchLocal (cs : List Char) : Option (List Char × List Char) :=
  match expect2 cs with
  | none => none
  | some (y1, y2, r1) =>
  match expect2 r1 with
  | none => none
  | some (y3, y4, r2) =>
  match expectLit '-' r2 with
  | none => none
  | some r3 =>
  match expect2 r3 with
  | none => none
  | some (m1, m2, r4) =>
  match expectLit '-' r4 with
  | none => none
  | some r5 =>
  match expect2 r5 with
  | none => none
  | some (d1, d2, r6) =>
  match expectLit 'T' r6 with
  | none => none
  | some r7 =>
  match expect2 r7 with
  | none => none
  | some (h1, h2, r8) =>
  match expectLit ':' r8 with
  | none => none
  | some r9 =>
  match expect2 r9 with
  | none => none
  | some (n1, n2, r10) =>
    let base := [y1, y2, y3, y4, '-', m1, m2, '-', d1, d2, 'T', h1, h2, ':', n1, n2]
    match expectLit ':' r10 with
    | none => some (base, r10)
    | some r11 =>
      match expect2 r11 with
      | none => some (base, r10)
      | some (s1, s2, r12) => some (base ++ [':', s1, s2], r12)

/-- Full-match test for the regex `^\\d{4}-\\d{2}-\\d{2}T\\d{2}:\\d{2}$`
(the test inside `ensureSeconds`): the 16-character local form with
nothing following. -/
def isLocal16 (cs : List Char) : Bool :=
  match matchLocal cs with
  | some (m, rest) => rest.isEmpty && m.length == 16
  | none => false

/-- `src/utils/datetime.ts` `ensureSeconds`: append `:00` when the input is
exactly a `YYYY-MM-DDTHH:mm` local datetime. -/
def ensureSeconds (dt : String) : String :=
  if isLocal16 dt.data then dt ++ ":00" else dt

/-- Matcher for the regex `\[([^\]]+)\]\s*$` (used in `parseIxdtf`):
scan left to right for the first `[` whose bracketed non-`]` content is
nonempty, closed by `]`, and followed only by whitespace; return the text
before that `[` (the match index cut) and the bracket content.  `acc`
accumulates the scanned text in reverse. -/
def zoneScan : List Char → List Char → Option (List Char × List Char)
  | [], _ => none
  | c :: rest, acc =>
    if c = '[' then
      let content := rest.takeWhile (fun ch => ch ≠ ']')
      let after := rest.drop content.length
      if after.headD ' ' = ']' then
        (if !content.isEmpty && after.tail.all isWsChar then
           some (acc.reverse, content)
         else zoneScan rest ('[' :: acc))
      else zoneScan rest ('[' :: acc)
    else zoneScan rest (c :: acc)

/-- `src/utils/datetime.ts` / `src/utils/search.ts` `parseIxdtf`: extract
the trailing `[Zone]` suffix and the leading local datetime (offset and
anything else discarded); either side may independently fail to `null`. -/
def parseIxdtf (input : String) : ZonedValue :=
  let trimmed := trimChars input.data
  if trimmed.isEmpty then ⟨none, none⟩
  else
    match zoneScan trimmed [] with
    | some (before, content) =>
      let withoutZone := trimChars before
      (match matchLocal withoutZone with
       | some (loc, _) => ⟨some (ensureSeconds ⟨loc⟩), some ⟨content⟩⟩
       | none => ⟨none, some ⟨content⟩⟩)
    | none =>
      match matchLocal trimmed with
      | some (loc, _) => ⟨some (ensureSeconds ⟨loc⟩), none⟩
      | none => ⟨none, none⟩

/- ===================== Luxon zone and resolution model ===================== -/

/-- Model of a Luxon zone as Luxon itself consumes it: `offsetAt ts` is
`zone.offset(ts)`, the offset in minutes east of UTC at the instant `ts`
(seconds since the epoch).  `fixedZero` marks the fixed zero-offset zone
(`FixedOffsetZone.utcInstance`, what the id string "UTC" normalizes to),
whose ISO rendering uses `Z`; IANA zones have `fixedZero = false`. -/
structure ZoneImpl where
  offsetAt : Int → Int
  fixedZero : Bool

/-- Luxon's `fixOffset` (luxon `src/datetime.js`): given the local
wall-clock timestamp `L` (seconds, components read as if UTC), a
provisional offset `o` (minutes) and the zone offset function `f`, find
the instant and offset; local times in a DST gap fall through to the
third branch and are shifted. -/
def fixOffset (L o : Int) (f : Int → Int) : Int × Int :=
  let utcGuess := L - o * 60
  let o2 := f utcGuess
  if o2 = o then (utcGuess, o)
  else
    let utcGuess2 := utcGuess - (o2 - o) * 60
    let o3 := f utcGuess2
    if o3 = o2 then (utcGuess2, o2)
    else (L - (min o2 o3) * 60, max o2 o3)

/-- Parser for the fragment of Luxon's ISO 8601 grammar this plugin feeds
it: a bare local `YYYY-MM-DDTHH:mm[:ss]` string and nothing else (the only
shape the plugin's own regexes let through to `DateTime.fromISO`). -/
def parseISOLocal (s : String) : Option LocalDT :=
  match expect2 s.data with
  | none => none
  | some (y1, y2, r1) =>
  match expect2 r1 with
  | none => none
  | some (y3, y4, r2) =>
  match expectLit '-' r2 with
  | none => none
  | some r3 =>
  match expect2 r3 with
  | none => none
  | some (m1, m2, r4) =>
  match expectLit '-' r4 with
  | none => none
  | some r5 =>
  match expect2 r5 with
  | none => none
  | some (d1, d2, r6) =>
  match expectLit 'T' r6 with
  | none => none
  | some r7 =>
  match expect2 r7 with
  | none => none
  | some (h1, h2, r8) =>
  match expectLit ':' r8 with
  | none => none
  | some r9 =>
  match expect2 r9 with
  | none => none
  | some (n1, n2, r10) =>
    let year := digVal y1 * 1000 + digVal y2 * 100 + digVal y3 * 10 + digVal y4
    let month := digVal m1 * 10 + digVal m2
    let day := digVal d1 * 10 + digVal d2
    let hour := digVal h1 * 10 + digVal h2
    let minute := digVal n1 * 10 + digVal n2
    match r10 with
    | [] => some ⟨year, month, day, hour, minute, 0⟩
    | _ =>
      match expectLit ':' r10 with
      | none => none
      | some r11 =>
      match expect2 r11 with
      | none => none
      | some (s1, s2, r12) =>
        if r12.isEmpty then some ⟨year, month, day, hour, minute,
                                  digVal s1 * 10 + digVal s2⟩
        else none

/-- Model of `DateTime.fromISO(s, { zone })` for a bare local datetime
string: parse, range-validate, then resolve the wall time against the
zone with `fixOffset`, whose provisional offset `guess` is
`zone.offset(Settings.now())` in Luxon (kept as a parameter here since it
depends on the wall-clock "now").  Returns the instant `ts` (epoch
seconds), the stored offset `o` (minutes) and the wall components
`tsToObj(ts + o)` that Luxon derives for formatting. -/
def luxonFromISO (z : ZoneImpl) (guess : Int) (s : String) :
    Option (Int × Int × LocalDT) :=
  match parseISOLocal s with
  | none => none
  | some c =>
    if validLocalDT c then
      let L := localSecs c
      let r := fixOffset L guess z.offsetAt
      some (r.1, r.2, secsToLocal (r.1 + r.2 * 60))
    else none

/- ===================== formatToIxdtf / buildDatoOutput ===================== -/

/-- A zone database: what Luxon's `normalizeZone` resolves a zone id
string to (`none` models an invalid/unknown zone, which makes the
`DateTime` invalid). -/
def ZoneDB : Type := String → Option ZoneImpl

/-- `src/utils/search.ts` `formatToIxdtf`: null when either field is
falsy or the datetime fails to resolve in the zone; otherwise the Luxon
ISO rendering (wall components plus derived offset) with `[zone]`
appended.  `db` models the runtime zone database and `guess` Luxon's
provisional offset `zone.offset(Settings.now())`. -/
def formatToIxdtf (db : ZoneDB) (guess : Int) (value : ZonedValue) :
    Option String :=
  if !strTruthy value.dateTime || !strTruthy value.timeZone then none
  else
    match value.dateTime, value.timeZone with
    | some dt, some tz =>
      (match db tz with
       | none => none
       | some z =>
         match luxonFromISO z guess dt with
         | none => none
         | some (_, o, wall) =>
           some ⟨printLocalChars wall ++ printOffsetChars z.fixedZero o
                  ++ '[' :: tz.data ++ [']']⟩)
    | _, _ => none

/-- Luxon's `toFormat("ZZ")`: the offset as `±HH:MM` (always numeric,
also for UTC). -/
def toFormatZZ (o : Int) : String :=
  let a := if o < 0 then -o else o
  ⟨(if o < 0 then '-' else '+') :: pad2 (a / 60) ++ ':' :: pad2 (a % 60)⟩

/-- Decimal rendering of an integer, as JavaScript `String(n)` for
integral numbers. -/
def intDecimal (n : Int) : String :=
  if n < 0 then "-" ++ Nat.repr n.natAbs else Nat.repr n.natAbs

/-- `src/utils/datetime.ts` `DatoZonedOutput`: the structured JSON payload
built by `buildDatoOutput`. -/
structure DatoZonedOutput where
  zonedDateTime : String
  dateTime : String
  zone : String
  offset : String
  date : String
  time_24hr : String
  time_12hr : String
  ampm : String
  timestamp : String
deriving DecidableEq

/-- `src/utils/datetime.ts` `buildDatoOutput`: `none` models the empty
object `{}` returned when the value is incomplete or does not resolve;
otherwise every field is derived from the one resolved Luxon `DateTime`
(`toISO`, `toFormat("ZZ")`, `toFormat("yyyy-LL-dd")`, `toFormat("HH:mm:ss")`,
`toFormat("hh:mm:ss")`, `hour >= 12`, `toUnixInteger`). -/
def buildDatoOutput (db : ZoneDB) (guess : Int) (value : ZonedValue) :
    Option DatoZonedOutput :=
  if !strTruthy value.dateTime || !strTruthy value.timeZone then none
  else
    match value.dateTime, value.timeZone with
    | some dt, some tz =>
      (match db tz with
       | none => none
       | some z =>
         match luxonFromISO z guess dt with
         | none => none
         | some (ts, o, wall) =>
           let isoWithOffset : List Char :=
             printLocalChars wall ++ printOffsetChars z.fixedZero o
           some
             { zonedDateTime := ⟨isoWithOffset ++ '[' :: tz.data ++ [']']⟩
               dateTime := ⟨isoWithOffset⟩
               zone := tz
               offset := toFormatZZ o
               date := ⟨pad4 wall.year ++ '-' :: pad2 wall.month
                         ++ '-' :: pad2 wall.day⟩
               time_24hr := ⟨pad2 wall.hour ++ ':' :: pad2 wall.minute
                              ++ ':' :: pad2 wall.second⟩
               time_12hr := ⟨pad2 ((wall.hour + 11) % 12 + 1)
                              ++ ':' :: pad2 wall.minute
                              ++ ':' :: pad2 wall.second⟩
               ampm := if 12 ≤ wall.hour then "pm" else "am"
               timestamp := intDecimal ts })
    | _, _ => none

/- ===================== parseDatoValue over a JS value model ===================== -/

/-- Model of the `unknown` JavaScript values `parseDatoValue` can
receive: null, strings, numbers, booleans, and objects as association
lists of string-keyed fields. -/
inductive JSVal where
  | vNull : JSVal
  | vStr : String → JSVal
  | vNum : Int → JSVal
  | vBool : Bool → JSVal
  | vObj : List (String × JSVal) → JSVal

/-- Field access plus `typeof x === "string"` check:
`typeof anyVal.k === "string" ? anyVal.k : null`. -/
def getStrField (fs : List (String × JSVal)) (k : String) : Option String :=
  match fs.lookup k with
  | some (JSVal.vStr s) => some s
  | _ => none

/-- `src/utils/datetime.ts` `parseDatoValue`: resolve legacy/current
object shapes with priority explicit `{zone, dateTime}` pair, then
separate `{zone, date, time_24hr|time}` fields, then an embedded
`zonedDateTime` IXDTF string, else give up.  Non-object input falls
through to `{null, null}`.  Truthiness (`zone && dateTime` etc.) treats
the empty string as absent. -/
def parseDatoValue (input : JSVal) : ZonedValue :=
  match input with
  | JSVal.vObj fs =>
    let zone := getStrField fs "zone"
    let dateTime := getStrField fs "dateTime"
    if strTruthy zone && strTruthy dateTime then
      match dateTime with
      | some dts =>
        (match matchLocal dts.data with
         | some (loc, _) => ⟨some (ensureSeconds ⟨loc⟩), zone⟩
         | none => ⟨none, zone⟩)
      | none => ⟨none, zone⟩
    else
      let date := getStrField fs "date"
      let time24 := getStrField fs "time_24hr"
      let time := getStrField fs "time"
      if strTruthy zone && strTruthy date && (strTruthy time24 || strTruthy time) then
        let t := match time24 with
          | some s => s
          | none => time.getD ""
        ⟨some (ensureSeconds (date.getD "" ++ "T" ++ t)), zone⟩
      else
        match fs.lookup "zonedDateTime" with
        | some (JSVal.vStr s) => parseIxdtf s
        | _ => ⟨none, none⟩
  | _ => ⟨none, none⟩

/-- The JavaScript object a `ZonedValue` is when fed back to
`parseDatoValue` (its fields are named `dateTime` and `timeZone`). -/
def zonedValueToJS (v : ZonedValue) : JSVal :=
  JSVal.vObj [("dateTime", match v.dateTime with
                           | some s => JSVal.vStr s
                           | none => JSVal.vNull),
              ("timeZone", match v.timeZone with
                           | some s => JSVal.vStr s
                           | none => JSVal.vNull)]

/- ===================== Search normalizer (src/utils/search.ts) ===================== -/

/-- Lower-case ASCII letters and digits: the `[a-z0-9]` class kept by
`normalizeForSearch`. -/
def keepAlnum (c : Char) : Bool :=
  (97 ≤ c.toNat && c.toNat ≤ 122) || (48 ≤ c.toNat && c.toNat ≤ 57)

/-- Unicode combining diacritical marks U+0300..U+036F, the class removed
by `normalizeForSearch` after NFD decomposition. -/
def isCombiningMark (c : Char) : Bool :=
  0x300 ≤ c.toNat && c.toNat ≤ 0x36F

/-- `String.prototype.toLowerCase` on the ASCII fragment (the simple case
mapping; sufficient for the zone ids and labels of this development). -/
def jsToLower (c : Char) : Char :=
  if 65 ≤ c.toNat && c.toNat ≤ 90 then Char.ofNat (c.toNat + 32) else c

/-- `src/utils/search.ts` `normalizeForSearch`: NFD-decompose (modelled as
the identity: inputs here are already decomposed), strip combining marks,
lower-case, collapse every run of non-`[a-z0-9]` to a single space, trim.
The collapse-and-trim is rendered as split-into-runs-and-rejoin, which is
extensionally the same operation. -/
def normalizeForSearch (s : String) : String :=
  ⟨joinSpaces (splitRuns keepAlnum
      ((s.data.filter (fun c => !isCombiningMark c)).map jsToLower))⟩

/-- `src/utils/search.ts` `makeSearchHaystack`: join the truthy parts with
spaces and normalize. -/
def makeSearchHaystack (parts : List String) : String :=
  normalizeForSearch (String.intercalate " " (parts.filter (fun p => !p.isEmpty)))

/- ===================== Zone options (src/utils/zoneOptions.ts) ===================== -/

/-- `ZoneOption` of `src/utils/zoneOptions.ts`. -/
structure ZoneOption where
  tz : String
  group : String
  label : String
  offsetMin : Int
  searchHay : String
deriving DecidableEq

/-- `src/utils/timezones.ts` `groupForTimeZone`. -/
def groupForTimeZone (tz : String) : String :=
  if tz = "UTC" || tz = "GMT" || leadsWith "Etc/".data tz.data then "Etc"
  else
    let first : List Char := tz.data.takeWhile (fun c => c ≠ '/')
    if first.isEmpty then "Other" else ⟨first⟩

/-- `src/utils/datetime.ts` `utcOffsetStringForZone`, with the Luxon
offset lookup (`DateTime.fromJSDate(at, { zone }).offset`) supplied as
`zoneOffset` (offset in minutes at the relevant instant). -/
def utcOffsetStringForZone (zoneOffset : String → Int) (timeZone : String) :
    String :=
  let offsetMin := zoneOffset timeZone
  let sign := if 0 ≤ offsetMin then "+" else "-"
  let abs := if offsetMin < 0 then -offsetMin else offsetMin
  let hours := abs / 60
  let minutes := abs % 60
  let mm := if minutes ≠ 0 then ":" ++ String.mk (pad2 minutes) else ""
  "UTC" ++ sign ++ intDecimal hours ++ mm

/-- The static context `makeZoneLabel` receives: the zone-offset and
localized-long-name lookups close over the source's `now` and `locale`
(they model the Luxon/`Intl` runtime services), `zoneToCountry` is the
zone.tab map, and the rest are the source's fields. -/
structure ZoneLabelCfg where
  zoneOffset : String → Int
  longName : String → Option String
  zoneToCountry : String → Option String
  labelsBrowser : String
  labelsSite : String
  browserTimeZone : String
  siteTimeZone : Option String
  toFlagEmoji : String → String

/-- `src/utils/zoneOptions.ts` `makeZoneLabel`. -/
def makeZoneLabel (tz : String) (suggestedKind : Bool) (cfg : ZoneLabelCfg) :
    String :=
  let offset := utcOffsetStringForZone cfg.zoneOffset tz
  let localized := (cfg.longName tz).getD tz
  let flag := match cfg.zoneToCountry tz with
    | some cc => if cc.isEmpty then "" else cfg.toFlagEmoji cc ++ " "
    | none => ""
  let base := tz ++ " (" ++ offset
    ++ (if !localized.isEmpty && localized ≠ tz then ", " ++ localized else "")
    ++ ")"
  if tz = "UTC" then "🌍 " ++ base
  else if suggestedKind then
    (if tz = cfg.browserTimeZone then flag ++ cfg.labelsBrowser ++ ": " ++ base
     else if strTruthy cfg.siteTimeZone && cfg.siteTimeZone = some tz then
       flag ++ cfg.labelsSite ++ ": " ++ base
     else flag ++ base)
  else flag ++ base

/-- The suggested-group priority of `buildZoneOptions`:
UTC 0, site zone 1, browser zone 2, anything else 3. -/
def priorityOf (siteTimeZone : Option String) (browserTimeZone tz : String) :
    Int :=
  if tz = "UTC" then 0
  else if strTruthy siteTimeZone && siteTimeZone = some tz then 1
  else if tz = browserTimeZone then 2
  else 3

/-- Insert `a` into `l` before the first element `b` with `cmp a b < 0`
(after all elements that compare equal): the insertion step of a stable
comparator sort. -/
def insertCmp {α : Type} (cmp : α → α → Int) (a : α) : List α → List α
  | [] => [a]
  | b :: bs => if cmp a b < 0 then a :: b :: bs else b :: insertCmp cmp a bs

/-- Stable comparator sort, modelling `Array.prototype.sort` (stable per
the ECMAScript specification): elements are inserted in input order, each
after its ties. -/
def jsSortStable {α : Type} (cmp : α → α → Int) (l : List α) : List α :=
  l.foldl (fun acc a => insertCmp cmp a acc) []

/-- Lexicographic three-way comparison by code point, the behaviour of
`String.prototype.localeCompare` on the ASCII group labels and labels of
this development. -/
def charListCmp : List Char → List Char → Int
  | [], [] => 0
  | [], _ :: _ => -1
  | _ :: _, [] => 1
  | a :: as, b :: bs =>
    if a.toNat < b.toNat then -1
    else if b.toNat < a.toNat then 1
    else charListCmp as bs

/-- String three-way comparison (model of `localeCompare`). -/
def strCmpInt (a b : String) : Int := charListCmp a.data b.data

/-- Everything `buildZoneOptions` consumes. -/
structure ZoneOptionsParams where
  timeZones : List String
  suggestedTimeZones : List String
  suggestedLabel : String
  cfg : ZoneLabelCfg

/-- One suggested-group option (the body of the first `map` in
`buildZoneOptions`); the source's per-call offset cache is pure
memoization of `zoneOffset` and is dropped. -/
def mkSuggestedOption (p : ZoneOptionsParams) (tz : String) : ZoneOption :=
  let label := makeZoneLabel tz true p.cfg
  { tz := tz, group := p.suggestedLabel, label := label,
    offsetMin := p.cfg.zoneOffset tz,
    searchHay := makeSearchHaystack [tz, label] }

/-- One regular option (the body of the second `map` in
`buildZoneOptions`). -/
def mkRegularOption (p : ZoneOptionsParams) (tz : String) : ZoneOption :=
  let label := makeZoneLabel tz false p.cfg
  { tz := tz, group := groupForTimeZone tz, label := label,
    offsetMin := p.cfg.zoneOffset tz,
    searchHay := makeSearchHaystack [tz, label] }

/-- The suggested-group comparator `(a, b) => priorityOf(a.tz) - priorityOf(b.tz)`. -/
def suggestedCmp (p : ZoneOptionsParams) (a b : ZoneOption) : Int :=
  priorityOf p.cfg.siteTimeZone p.cfg.browserTimeZone a.tz
    - priorityOf p.cfg.siteTimeZone p.cfg.browserTimeZone b.tz

/-- The regular comparator: group label, then offset, then label
(`a.offsetMin - b.offsetMin || a.label.localeCompare(b.label)`). -/
def regularCmp (a b : ZoneOption) : Int :=
  if a.group ≠ b.group then strCmpInt a.group b.group
  else if a.offsetMin - b.offsetMin ≠ 0 then a.offsetMin - b.offsetMin
  else strCmpInt a.label b.label

/-- `src/utils/zoneOptions.ts` `buildZoneOptions`. -/
def buildZoneOptions (p : ZoneOptionsParams) : List ZoneOption :=
  jsSortStable (suggestedCmp p) (p.suggestedTimeZones.map (mkSuggestedOption p))
    ++ jsSortStable regularCmp (p.timeZones.map (mkRegularOption p))

/- ============= Autocomplete filter (src/ui/timeZoneAutocomplete.tsx) ============= -/

/-- The tokens of a query: normalize the trimmed input and split on
whitespace, dropping empties (`norm.split(/\s+/).filter(Boolean)`). -/
def queryTokens (inputValue : String) : List (List Char) :=
  splitRuns (fun c => !isWsChar c)
    (normalizeForSearch ⟨trimChars inputValue.data⟩).data

/-- `src/ui/timeZoneAutocomplete.tsx` `filterZoneOptions`: keep options
whose precomputed haystack contains every query token as a substring. -/
def filterZoneOptions (opts : List ZoneOption) (inputValue : String) :
    List ZoneOption :=
  let q := trimChars inputValue.data
  if q.isEmpty then opts
  else
    let norm := normalizeForSearch ⟨q⟩
    if norm.data.isEmpty then opts
    else
      let tokens := splitRuns (fun c => !isWsChar c) norm.data
      opts.filter (fun o => tokens.all (fun t => hasSubstr o.searchHay.data t))

/- ===================== Concrete zone models ===================== -/

/-- Epoch seconds of a UTC date-time, for stating transition instants. -/
def utcSecs (y m d h mi s : Int) : Int :=
  daysFromCivil y m d * 86400 + h * 3600 + mi * 60 + s

/-- America/Chicago, 2025 fragment of the IANA rules: CST (−06:00) until
2025-03-09T08:00Z, CDT (−05:00) until 2025-11-02T07:00Z, then CST. -/
def americaChicago : ZoneImpl :=
  ⟨fun t =>
    if t < utcSecs 2025 3 9 8 0 0 then -360
    else if t < utcSecs 2025 11 2 7 0 0 then -300
    else -360, false⟩

/-- America/Los_Angeles, 1996–1997 fragment of the IANA rules:
PST (−08:00) / PDT (−07:00) with the 1996 and 1997 transitions. -/
def americaLosAngeles : ZoneImpl :=
  ⟨fun t =>
    if t < utcSecs 1996 4 7 10 0 0 then -480
    else if t < utcSecs 1996 10 27 9 0 0 then -420
    else if t < utcSecs 1997 4 6 10 0 0 then -480
    else if t < utcSecs 1997 10 26 9 0 0 then -420
    else -480, false⟩

/-- Europe/Rome, 2025 fragment of the IANA rules: CET (+01:00) until
2025-03-30T01:00Z, CEST (+02:00) until 2025-10-26T01:00Z, then CET. -/
def europeRome : ZoneImpl :=
  ⟨fun t =>
    if t < utcSecs 2025 3 30 1 0 0 then 60
    else if t < utcSecs 2025 10 26 1 0 0 then 120
    else 60, false⟩

/-- The fixed zero-offset zone the id "UTC" normalizes to in Luxon. -/
def utcZone : ZoneImpl := ⟨fun _ => 0, true⟩

/-- A concrete zone database for the claims' concrete instances. -/
def demoZoneDB : ZoneDB := fun s =>
  if s = "America/Chicago" then some americaChicago
  else if s = "America/Los_Angeles" then some americaLosAngeles
  else if s = "Europe/Rome" then some europeRome
  else if s = "UTC" then some utcZone
  else none

/-- A single-transition zone rule: America/Chicago around the 2025
spring-forward transition only (the local shape of the zone there). -/
def chicagoSpring : ZoneImpl :=
  ⟨fun t => if t < utcSecs 2025 3 9 8 0 0 then -360 else -300, false⟩

/-- A one-zone database used to instantiate the round-trip theorem. -/
def c1DB : ZoneDB := fun s =>
  if s = "America/Chicago" then some chicagoSpring else none

/-- The suggested-group priority of an option: `priorityOf` applied to the
option's `tz` field (the key the suggested comparator subtracts). -/
def prioO (p : ZoneOptionsParams) (o : ZoneOption) : Int :=
  priorityOf p.cfg.siteTimeZone p.cfg.browserTimeZone o.tz

/-- A concrete label-rendering context (the Luxon/`Intl` services at a
fixed summer instant: Rome at UTC+2 with its localized long name and
country flag). -/
def c7Cfg : ZoneLabelCfg where
  zoneOffset := fun tz => if tz = "Europe/Rome" then 120 else 0
  longName := fun tz =>
    if tz = "Europe/Rome" then some "Central European Summer Time" else none
  zoneToCountry := fun tz => if tz = "Europe/Rome" then some "IT" else none
  labelsBrowser := "Your browser"
  labelsSite := "This project"
  browserTimeZone := "America/Chicago"
  siteTimeZone := some "UTC"
  toFlagEmoji := fun _ => "🇮🇹"

/-- Builder parameters for a small option list containing Europe/Rome. -/
def c7Params : ZoneOptionsParams where
  timeZones := ["UTC", "Europe/Rome"]
  suggestedTimeZones := []
  suggestedLabel := "Suggested"
  cfg := c7Cfg

/-- The Europe/Rome option as the builder constructs it. -/
def romeOption : ZoneOption := mkRegularOption c7Params "Europe/Rome"

/-- The option list the autocomplete filters over. -/
def c7Options : List ZoneOption := buildZoneOptions c7Params

/- ===================== Calendar round-trip lemmas ===================== -/

theorem yoeDoyFromDays_decomp (era doe : Int) (h1 : 0 ≤ doe) (h2 : doe ≤ 146096) :
    yoeDoyFromDays (era * 146097 + doe - 719468)
      = (era * 400 + 100 * civilCentury doe
           + civilYearOfCentury (doe - 36524 * civilCentury doe),
         doe - 36524 * civilCentury doe
           - (365 * civilYearOfCentury (doe - 36524 * civilCentury doe)
              + civilYearOfCentury (doe - 36524 * civilCentury doe) / 4)) := by
  unfold yoeDoyFromDays
  simp only []
  have hz : era * 146097 + doe - 719468 + 719468 = era * 146097 + doe := by ring
  rw [hz]
  have hera : (era * 146097 + doe) / 146097 = era := by omega
  rw [hera]
  have hd : era * 146097 + doe - era * 146097 = doe := by ring
  rw [hd]

theorem civilCentury_eq (doe k0 : Int) (hlo : 146097 * k0 ≤ 4 * doe + 3)
    (hhi : 4 * doe + 3 < 146097 * (k0 + 1)) : civilCentury doe = k0 := by
  unfold civilCentury; omega

theorem civilYearOfCentury_eq (doc j0 : Int) (hlo : 1461 * j0 ≤ 4 * doc + 3)
    (hhi : 4 * doc + 3 < 1461 * (j0 + 1)) : civilYearOfCentury doc = j0 := by
  unfold civilYearOfCentury; omega

set_option maxHeartbeats 1000000 in
theorem yoeDoy_roundtrip (yy doy : Int) (h3 : 0 ≤ doy) (h4 : doy ≤ 365)
    (h5 : doy = 365 → (yy + 1) % 4 = 0 ∧ ((yy + 1) % 100 ≠ 0 ∨ (yy + 1) % 400 = 0)) :
    yoeDoyFromDays (startOfMarchYear yy + doy) = (yy, doy) := by
  have hera0 : yy / 400 * 400 + yy % 400 = yy := by omega
  set era0 := yy / 400 with he0
  set yoe := yy - era0 * 400 with hyo
  have hyoe1 : 0 ≤ yoe := by omega
  have hyoe2 : yoe ≤ 399 := by omega
  set k0 := yoe / 100 with hc0
  set j0 := yoe - 100 * k0 with hjj
  have hk1 : 0 ≤ k0 := by omega
  have hk2 : k0 ≤ 3 := by omega
  have hj1 : 0 ≤ j0 := by omega
  have hj2 : j0 ≤ 99 := by omega
  have hdiv4 : yoe / 4 = 25 * k0 + j0 / 4 := by omega
  have hdiv100 : yoe / 100 = k0 := by omega
  have hj4a : 4 * (j0 / 4) ≤ j0 := by omega
  have hj4b : j0 - 3 ≤ 4 * (j0 / 4) := by omega
  have hj4c : 0 ≤ j0 / 4 := by omega
  have hj4d : j0 / 4 ≤ 24 := by omega
  have hleap : doy ≤ 364 ∨ (j0 % 4 = 3 ∧ (j0 ≠ 99 ∨ k0 = 3)) := by
    rcases Int.lt_or_le doy 365 with h | h
    · left; omega
    · right
      have h365 : doy = 365 := by omega
      have := h5 h365
      omega
  set doe := 36524 * k0 + 365 * j0 + j0 / 4 + doy with hde
  have hdoe1 : 0 ≤ doe := by omega
  have hdoe2 : doe ≤ 146096 := by omega
  have harg : startOfMarchYear yy + doy = era0 * 146097 + doe - 719468 := by
    unfold startOfMarchYear
    simp only []
    rw [← he0, ← hyo, hdiv4, hdiv100]
    ring
  rw [harg, yoeDoyFromDays_decomp era0 doe hdoe1 hdoe2]
  have hcent : civilCentury doe = k0 := by
    apply civilCentury_eq
    · omega
    · omega
  rw [hcent]
  have hyc : civilYearOfCentury (doe - 36524 * k0) = j0 := by
    apply civilYearOfCentury_eq
    · omega
    · omega
  rw [hyc]
  refine Prod.ext ?_ ?_ <;> simp only [] <;> omega

theorem civilFromDays_eval (z yy doy : Int) (h : yoeDoyFromDays z = (yy, doy)) :
    civilFromDays z
      = (if (if (5 * doy + 2) / 153 < 10 then (5 * doy + 2) / 153 + 3
             else (5 * doy + 2) / 153 - 9) ≤ 2 then yy + 1 else yy,
         if (5 * doy + 2) / 153 < 10 then (5 * doy + 2) / 153 + 3
         else (5 * doy + 2) / 153 - 9,
         doy - (153 * ((5 * doy + 2) / 153) + 2) / 5 + 1) := by
  unfold civilFromDays
  rw [h]

set_option maxHeartbeats 1600000 in
theorem civil_roundtrip (y m d : Int) (hm : 1 ≤ m) (hm2 : m ≤ 12)
    (hd : 1 ≤ d) (hd2 : d ≤ daysInMonth y m) :
    civilFromDays (daysFromCivil y m d) = (y, m, d) := by
  have hdim : d ≤ 31 ∧ ((m = 4 ∨ m = 6 ∨ m = 9 ∨ m = 11) → d ≤ 30) ∧ (m = 2 →
      (d ≤ 28 ∨ (d ≤ 29 ∧ y % 4 = 0 ∧ (y % 100 ≠ 0 ∨ y % 400 = 0)))) := by
    refine ⟨?_, ?_, ?_⟩
    · unfold daysInMonth isLeapYear at hd2
      split_ifs at hd2 <;> omega
    · intro h4
      unfold daysInMonth at hd2
      rw [if_neg (by omega), if_pos h4] at hd2
      exact hd2
    · intro h2
      unfold daysInMonth isLeapYear at hd2
      rw [h2] at hd2
      norm_num at hd2
      by_cases hle : (4 ∣ y ∧ ¬ 100 ∣ y ∨ 400 ∣ y)
      · right; rw [if_pos hle] at hd2; omega
      · left; rw [if_neg hle] at hd2; omega
  obtain ⟨hdim31, hdim30, hdimf⟩ := hdim
  interval_cases m
  · have harg : daysFromCivil y 1 d = startOfMarchYear (y - 1) + (d + 305) := by
      unfold daysFromCivil; simp only []; split_ifs <;> omega
    have h := yoeDoy_roundtrip (y - 1) (d + 305) (by omega) (by omega) (by omega)
    rw [harg, civilFromDays_eval _ _ _ h]
    have hmp : (5 * (d + 305) + 2) / 153 = 10 := by omega
    rw [hmp]; norm_num; all_goals omega
  · have hfeb := hdimf rfl
    have harg : daysFromCivil y 2 d = startOfMarchYear (y - 1) + (d + 336) := by
      unfold daysFromCivil; simp only []; split_ifs <;> omega
    have h := yoeDoy_roundtrip (y - 1) (d + 336) (by omega) (by omega) (by omega)
    rw [harg, civilFromDays_eval _ _ _ h]
    have hmp : (5 * (d + 336) + 2) / 153 = 11 := by omega
    rw [hmp]; norm_num; all_goals omega
  · have harg : daysFromCivil y 3 d = startOfMarchYear y + (d - 1) := by
      unfold daysFromCivil; simp only []; split_ifs <;> omega
    have h := yoeDoy_roundtrip y (d - 1) (by omega) (by omega) (by omega)
    rw [harg, civilFromDays_eval _ _ _ h]
    have hmp : (5 * (d - 1) + 2) / 153 = 0 := by omega
    rw [hmp]; norm_num; all_goals omega
  · have hd30 : d ≤ 30 := hdim30 (by omega)
    have harg : daysFromCivil y 4 d = startOfMarchYear y + (d + 30) := by
      unfold daysFromCivil; simp only []; split_ifs <;> omega
    have h := yoeDoy_roundtrip y (d + 30) (by omega) (by omega) (by omega)
    rw [harg, civilFromDays_eval _ _ _ h]
    have hmp : (5 * (d + 30) + 2) / 153 = 1 := by omega
    rw [hmp]; norm_num; all_goals omega
  · have harg : daysFromCivil y 5 d = startOfMarchYear y + (d + 60) := by
      unfold daysFromCivil; simp only []; split_ifs <;> omega
    have h := yoeDoy_roundtrip y (d + 60) (by omega) (by omega) (by omega)
    rw [harg, civilFromDays_eval _ _ _ h]
    have hmp : (5 * (d + 60) + 2) / 153 = 2 := by omega
    rw [hmp]; norm_num; all_goals omega
  · have hd30 : d ≤ 30 := hdim30 (by omega)
    have harg : daysFromCivil y 6 d = startOfMarchYear y + (d + 91) := by
      unfold daysFromCivil; simp only []; split_ifs <;> omega
    have h := yoeDoy_roundtrip y (d + 91) (by omega) (by omega) (by omega)
    rw [harg, civilFromDays_eval _ _ _ h]
    have hmp : (5 * (d + 91) + 2) / 153 = 3 := by omega
    rw [hmp]; norm_num; all_goals omega
  · have harg : daysFromCivil y 7 d = startOfMarchYear y + (d + 121) := by
      unfold daysFromCivil; simp only []; split_ifs <;> omega
    have h := yoeDoy_roundtrip y (d + 121) (by omega) (by omega) (by omega)
    rw [harg, civilFromDays_eval _ _ _ h]
    have hmp : (5 * (d + 121) + 2) / 153 = 4 := by omega
    rw [hmp]; norm_num; all_goals omega
  · have harg : daysFromCivil y 8 d = startOfMarchYear y + (d + 152) := by
      unfold daysFromCivil; simp only []; split_ifs <;> omega
    have h := yoeDoy_roundtrip y (d + 152) (by omega) (by omega) (by omega)
    rw [harg, civilFromDays_eval _ _ _ h]
    have hmp : (5 * (d + 152) + 2) / 153 = 5 := by omega
    rw [hmp]; norm_num; all_goals omega
  · have hd30 : d ≤ 30 := hdim30 (by omega)
    have harg : daysFromCivil y 9 d = startOfMarchYear y + (d + 183) := by
      unfold daysFromCivil; simp only []; split_ifs <;> omega
    have h := yoeDoy_roundtrip y (d + 183) (by omega) (by omega) (by omega)
    rw [harg, civilFromDays_eval _ _ _ h]
    have hmp : (5 * (d + 183) + 2) / 153 = 6 := by omega
    rw [hmp]; norm_num; all_goals omega
  · have harg : daysFromCivil y 10 d = startOfMarchYear y + (d + 213) := by
      unfold daysFromCivil; simp only []; split_ifs <;> omega
    have h := yoeDoy_roundtrip y (d + 213) (by omega) (by omega) (by omega)
    rw [harg, civilFromDays_eval _ _ _ h]
    have hmp : (5 * (d + 213) + 2) / 153 = 7 := by omega
    rw [hmp]; norm_num; all_goals omega
  · have hd30 : d ≤ 30 := hdim30 (by omega)
    have harg : daysFromCivil y 11 d = startOfMarchYear y + (d + 244) := by
      unfold daysFromCivil; simp only []; split_ifs <;> omega
    have h := yoeDoy_roundtrip y (d + 244) (by omega) (by omega) (by omega)
    rw [harg, civilFromDays_eval _ _ _ h]
    have hmp : (5 * (d + 244) + 2) / 153 = 8 := by omega
    rw [hmp]; norm_num; all_goals omega
  · have harg : daysFromCivil y 12 d = startOfMarchYear y + (d + 274) := by
      unfold daysFromCivil; simp only []; split_ifs <;> omega
    have h := yoeDoy_roundtrip y (d + 274) (by omega) (by omega) (by omega)
    rw [harg, civilFromDays_eval _ _ _ h]
    have hmp : (5 * (d + 274) + 2) / 153 = 9 := by omega
    rw [hmp]; norm_num; all_goals omega

theorem validLocalDT_iff (c : LocalDT) :
    validLocalDT c = true ↔
      (0 ≤ c.year ∧ c.year ≤ 9999 ∧ 1 ≤ c.month ∧ c.month ≤ 12 ∧
       1 ≤ c.day ∧ c.day ≤ daysInMonth c.year c.month ∧
       0 ≤ c.hour ∧ c.hour ≤ 23 ∧ 0 ≤ c.minute ∧ c.minute ≤ 59 ∧
       0 ≤ c.second ∧ c.second ≤ 59) := by
  unfold validLocalDT
  simp only [Bool.and_eq_true, decide_eq_true_eq]
  tauto

theorem secsToLocal_localSecs (c : LocalDT) (h : validLocalDT c = true) :
    secsToLocal (localSecs c) = c := by
  rw [validLocalDT_iff] at h
  obtain ⟨h1, h2, h3, h4, h5, h6, h7, h8, h9, h10, h11, h12⟩ := h
  have hsplit : localSecs c
      = daysFromCivil c.year c.month c.day * 86400
        + (c.hour * 3600 + c.minute * 60 + c.second) := by
    unfold localSecs; ring
  have hdiv : localSecs c / 86400 = daysFromCivil c.year c.month c.day := by
    omega
  have hmod : localSecs c % 86400 = c.hour * 3600 + c.minute * 60 + c.second := by
    omega
  unfold secsToLocal
  simp only []
  rw [hdiv, hmod, civil_roundtrip c.year c.month c.day h3 h4 h5 h6]
  obtain ⟨y, mo, dy, hh, mi, ss⟩ := c
  simp only [LocalDT.mk.injEq]
  refine ⟨trivial, trivial, trivial, ?_, ?_, ?_⟩ <;> simp only [] at * <;> omega

/- ===================== Luxon resolution lemmas ===================== -/

theorem fixOffset_noGap (f : Int → Int) (T p q L guess : Int)
    (hf : ∀ t, f t = if t < T then p else q)
    (hg : guess = p ∨ guess = q)
    (hex : ∃ o, f (L - o * 60) = o) :
    ∃ o, fixOffset L guess f = (L - o * 60, o) ∧ f (L - o * 60) = o := by
  obtain ⟨o, ho⟩ := hex
  have hoPQ : o = p ∨ o = q := by
    have h := hf (L - o * 60)
    rw [h] at ho
    split_ifs at ho <;> omega
  unfold fixOffset
  simp only []
  by_cases h1 : f (L - guess * 60) = guess
  · rw [if_pos h1]
    exact ⟨guess, rfl, h1⟩
  · rw [if_neg h1]
    have harg : L - guess * 60 - (f (L - guess * 60) - guess) * 60
        = L - f (L - guess * 60) * 60 := by ring
    rw [harg]
    by_cases h2 : f (L - f (L - guess * 60) * 60) = f (L - guess * 60)
    · rw [if_pos h2]
      exact ⟨f (L - guess * 60), rfl, h2⟩
    · exfalso
      have ho2PQ : f (L - guess * 60) = p ∨ f (L - guess * 60) = q := by
        rw [hf]
        split_ifs <;> simp
      have hno : o ≠ guess := by
        intro he
        rw [he] at ho
        exact h1 ho
      have ho2o : f (L - guess * 60) = o := by omega
      rw [ho2o] at h2
      exact h2 ho

/- ===================== Printing/parsing lemmas ===================== -/

theorem isDig_digitChar (n : Int) (h1 : 0 ≤ n) (h2 : n ≤ 9) :
    isDig (digitChar n) = true := by
  interval_cases n <;> decide

theorem digVal_digitChar (n : Int) (h1 : 0 ≤ n) (h2 : n ≤ 9) :
    digVal (digitChar n) = n := by
  interval_cases n <;> decide

theorem digitChar_safe (n : Int) (h1 : 0 ≤ n) (h2 : n ≤ 9) :
    isWsChar (digitChar n) = false ∧ digitChar n ≠ '[' ∧ digitChar n ≠ ']' := by
  interval_cases n <;> decide

theorem dropWhile_eq_self_of_head (p : Char → Bool) (l : List Char)
    (h : ∀ a, l.head? = some a → p a = false) : l.dropWhile p = l := by
  cases l with
  | nil => rfl
  | cons x xs =>
    rw [List.dropWhile_cons, h x rfl]
    simp

theorem trimChars_of_ends (l : List Char)
    (hhd : ∀ a, l.head? = some a → isWsChar a = false)
    (hlast : ∀ a, l.getLast? = some a → isWsChar a = false) :
    trimChars l = l := by
  unfold trimChars
  rw [dropWhile_eq_self_of_head _ _ hhd]
  rw [dropWhile_eq_self_of_head _ _
    (fun a ha => hlast a (by rwa [List.head?_reverse] at ha))]
  exact List.reverse_reverse l

theorem trimChars_of_all (l : List Char)
    (h : ∀ a ∈ l, isWsChar a = false) : trimChars l = l := by
  apply trimChars_of_ends
  · exact fun a ha => h a (List.mem_of_mem_head? (by rw [ha]; exact rfl))
  · intro a ha
    apply h
    rw [← List.head?_reverse] at ha
    exact List.mem_reverse.mp (List.mem_of_mem_head? (by rw [ha]; exact rfl))

theorem takeWhile_ne_append (zn rest : List Char) (h : ']' ∉ zn) :
    (zn ++ ']' :: rest).takeWhile (fun ch => ch ≠ ']') = zn := by
  induction zn with
  | nil => simp [List.takeWhile_cons]
  | cons x xs ih =>
    have hx : x ≠ ']' := fun he => h (by rw [he]; exact List.mem_cons_self _ _)
    rw [List.cons_append, List.takeWhile_cons]
    simp only [decide_eq_true (show x ≠ ']' from hx), if_pos rfl]
    rw [ih (fun hm => h (List.mem_cons_of_mem x hm))]
    simp

theorem zoneScan_append (pre zn acc : List Char)
    (hpre : '[' ∉ pre) (hzn : ']' ∉ zn) (hzne : zn ≠ []) :
    zoneScan (pre ++ '[' :: (zn ++ [']'])) acc = some (acc.reverse ++ pre, zn) := by
  induction pre generalizing acc with
  | nil =>
    have hne : zn.isEmpty = false := by
      cases zn with
      | nil => exact absurd rfl hzne
      | cons a as => rfl
    simp only [List.nil_append, zoneScan, if_pos rfl]
    rw [takeWhile_ne_append zn [] hzn]
    rw [List.drop_left]
    simp [hne]
  | cons x xs ih =>
    have hx : x ≠ '[' := by
      intro he
      exact hpre (by rw [he]; exact List.mem_cons_self _ _)
    simp only [List.cons_append, zoneScan, if_neg hx, List.append_eq]
    rw [ih (x :: acc) (fun hm => hpre (List.mem_cons_of_mem x hm))]
    simp

theorem daysInMonth_le (y m : Int) : daysInMonth y m ≤ 31 := by
  unfold daysInMonth
  split_ifs <;> omega

theorem expect2_cons (a b : Char) (r : List Char)
    (ha : isDig a = true) (hb : isDig b = true) :
    expect2 (a :: b :: r) = some (a, b, r) := by
  simp [expect2, expectDigit, ha, hb]

theorem expectLit_cons (ch : Char) (r : List Char) :
    expectLit ch (ch :: r) = some r := by
  simp [expectLit]

theorem matchLocal_shape (a1 a2 a3 a4 b1 b2 d1 d2 f1 f2 g1 g2 s1 s2 : Char)
    (off : List Char)
    (k1 : isDig a1 = true) (k2 : isDig a2 = true) (k3 : isDig a3 = true)
    (k4 : isDig a4 = true) (k5 : isDig b1 = true) (k6 : isDig b2 = true)
    (k7 : isDig d1 = true) (k8 : isDig d2 = true) (k9 : isDig f1 = true)
    (k10 : isDig f2 = true) (k11 : isDig g1 = true) (k12 : isDig g2 = true)
    (k13 : isDig s1 = true) (k14 : isDig s2 = true) :
    matchLocal ([a1, a2, a3, a4, '-', b1, b2, '-', d1, d2,
                 'T', f1, f2, ':', g1, g2, ':', s1, s2] ++ off)
      = some ([a1, a2, a3, a4, '-', b1, b2, '-', d1, d2,
               'T', f1, f2, ':', g1, g2, ':', s1, s2], off) := by
  simp only [List.cons_append, List.nil_append, matchLocal,
    expect2_cons a1 a2 _ k1 k2, expectLit_cons,
    expect2_cons a3 a4 _ k3 k4, expect2_cons b1 b2 _ k5 k6,
    expect2_cons d1 d2 _ k7 k8, expect2_cons f1 f2 _ k9 k10,
    expect2_cons g1 g2 _ k11 k12, expect2_cons s1 s2 _ k13 k14]

theorem printLocalChars_eq (c : LocalDT) :
    printLocalChars c
      = [digitChar (c.year / 1000), digitChar (c.year / 100 % 10),
         digitChar (c.year / 10 % 10), digitChar (c.year % 10), '-',
         digitChar (c.month / 10), digitChar (c.month % 10), '-',
         digitChar (c.day / 10), digitChar (c.day % 10), 'T',
         digitChar (c.hour / 10), digitChar (c.hour % 10), ':',
         digitChar (c.minute / 10), digitChar (c.minute % 10), ':',
         digitChar (c.second / 10), digitChar (c.second % 10)] := rfl

theorem matchLocal_print (c : LocalDT) (h : validLocalDT c = true) (off : List Char) :
    matchLocal (printLocalChars c ++ off) = some (printLocalChars c, off) := by
  rw [validLocalDT_iff] at h
  obtain ⟨h1, h2, h3, h4, h5, h6, h7, h8, h9, h10, h11, h12⟩ := h
  have hdm := daysInMonth_le c.year c.month
  rw [printLocalChars_eq]
  exact matchLocal_shape _ _ _ _ _ _ _ _ _ _ _ _ _ _ off
    (isDig_digitChar _ (by omega) (by omega)) (isDig_digitChar _ (by omega) (by omega))
    (isDig_digitChar _ (by omega) (by omega)) (isDig_digitChar _ (by omega) (by omega))
    (isDig_digitChar _ (by omega) (by omega)) (isDig_digitChar _ (by omega) (by omega))
    (isDig_digitChar _ (by omega) (by omega)) (isDig_digitChar _ (by omega) (by omega))
    (isDig_digitChar _ (by omega) (by omega)) (isDig_digitChar _ (by omega) (by omega))
    (isDig_digitChar _ (by omega) (by omega)) (isDig_digitChar _ (by omega) (by omega))
    (isDig_digitChar _ (by omega) (by omega)) (isDig_digitChar _ (by omega) (by omega))

theorem printLocal_safe (c : LocalDT) (h : validLocalDT c = true) :
    ∀ a ∈ printLocalChars c, isWsChar a = false ∧ a ≠ '[' ∧ a ≠ ']' := by
  rw [validLocalDT_iff] at h
  obtain ⟨h1, h2, h3, h4, h5, h6, h7, h8, h9, h10, h11, h12⟩ := h
  have hdm := daysInMonth_le c.year c.month
  rw [printLocalChars_eq]
  intro a ha
  simp only [List.mem_cons, List.not_mem_nil, or_false] at ha
  rcases ha with rfl | rfl | rfl | rfl | rfl | rfl | rfl | rfl | rfl | rfl
    | rfl | rfl | rfl | rfl | rfl | rfl | rfl | rfl | rfl <;>
    first
      | exact digitChar_safe _ (by omega) (by omega)
      | decide

theorem printOffset_safe (fz : Bool) (o : Int) (h1 : -5999 ≤ o) (h2 : o ≤ 5999) :
    ∀ a ∈ printOffsetChars fz o, isWsChar a = false ∧ a ≠ '[' ∧ a ≠ ']' := by
  unfold printOffsetChars
  by_cases hc : (fz && decide (o = 0)) = true
  · rw [if_pos hc]
    intro a ha
    simp only [List.mem_cons, List.not_mem_nil, or_false] at ha
    rw [ha]
    decide
  · rw [if_neg hc]
    simp only [pad2, List.cons_append, List.nil_append]
    have hb1 : 0 ≤ if o < 0 then -o else o := by split_ifs <;> omega
    have hb2 : (if o < 0 then -o else o) ≤ 5999 := by split_ifs <;> omega
    intro a ha
    simp only [List.mem_cons, List.not_mem_nil, or_false] at ha
    rcases ha with rfl | rfl | rfl | rfl | rfl | rfl
    · split_ifs <;> decide
    · exact digitChar_safe _ (by omega) (by omega)
    · exact digitChar_safe _ (by omega) (by omega)
    · decide
    · exact digitChar_safe _ (by omega) (by omega)
    · exact digitChar_safe _ (by omega) (by omega)

theorem ensureSeconds_print (c : LocalDT) (h : validLocalDT c = true) :
    ensureSeconds ⟨printLocalChars c⟩ = ⟨printLocalChars c⟩ := by
  have hm : matchLocal (printLocalChars c) = some (printLocalChars c, []) := by
    have hx := matchLocal_print c h []
    rwa [List.append_nil] at hx
  have hl : isLocal16 (printLocalChars c) = false := by
    unfold isLocal16
    rw [hm]
    rw [printLocalChars_eq]
    simp
  unfold ensureSeconds
  rw [show (String.mk (printLocalChars c)).data = printLocalChars c from rfl, hl]
  simp

set_option maxHeartbeats 1000000 in
theorem parseISOLocal_print (c : LocalDT) (h : validLocalDT c = true) :
    parseISOLocal ⟨printLocalChars c⟩ = some c := by
  rw [validLocalDT_iff] at h
  have hdm := daysInMonth_le c.year c.month
  obtain ⟨y, mo, dy, hh, mi, ss⟩ := c
  simp only [] at h hdm
  obtain ⟨h1, h2, h3, h4, h5, h6, h7, h8, h9, h10, h11, h12⟩ := h
  have e1 : isDig (digitChar (y / 1000)) = true :=
    isDig_digitChar _ (by omega) (by omega)
  have e2 : isDig (digitChar (y / 100 % 10)) = true :=
    isDig_digitChar _ (by omega) (by omega)
  have e3 : isDig (digitChar (y / 10 % 10)) = true :=
    isDig_digitChar _ (by omega) (by omega)
  have e4 : isDig (digitChar (y % 10)) = true :=
    isDig_digitChar _ (by omega) (by omega)
  have e5 : isDig (digitChar (mo / 10)) = true :=
    isDig_digitChar _ (by omega) (by omega)
  have e6 : isDig (digitChar (mo % 10)) = true :=
    isDig_digitChar _ (by omega) (by omega)
  have e7 : isDig (digitChar (dy / 10)) = true :=
    isDig_digitChar _ (by omega) (by omega)
  have e8 : isDig (digitChar (dy % 10)) = true :=
    isDig_digitChar _ (by omega) (by omega)
  have e9 : isDig (digitChar (hh / 10)) = true :=
    isDig_digitChar _ (by omega) (by omega)
  have e10 : isDig (digitChar (hh % 10)) = true :=
    isDig_digitChar _ (by omega) (by omega)
  have e11 : isDig (digitChar (mi / 10)) = true :=
    isDig_digitChar _ (by omega) (by omega)
  have e12 : isDig (digitChar (mi % 10)) = true :=
    isDig_digitChar _ (by omega) (by omega)
  have e13 : isDig (digitChar (ss / 10)) = true :=
    isDig_digitChar _ (by omega) (by omega)
  have e14 : isDig (digitChar (ss % 10)) = true :=
    isDig_digitChar _ (by omega) (by omega)
  have v1 := digVal_digitChar (y / 1000) (by omega) (by omega)
  have v2 := digVal_digitChar (y / 100 % 10) (by omega) (by omega)
  have v3 := digVal_digitChar (y / 10 % 10) (by omega) (by omega)
  have v4 := digVal_digitChar (y % 10) (by omega) (by omega)
  have v5 := digVal_digitChar (mo / 10) (by omega) (by omega)
  have v6 := digVal_digitChar (mo % 10) (by omega) (by omega)
  have v7 := digVal_digitChar (dy / 10) (by omega) (by omega)
  have v8 := digVal_digitChar (dy % 10) (by omega) (by omega)
  have v9 := digVal_digitChar (hh / 10) (by omega) (by omega)
  have v10 := digVal_digitChar (hh % 10) (by omega) (by omega)
  have v11 := digVal_digitChar (mi / 10) (by omega) (by omega)
  have v12 := digVal_digitChar (mi % 10) (by omega) (by omega)
  have v13 := digVal_digitChar (ss / 10) (by omega) (by omega)
  have v14 := digVal_digitChar (ss % 10) (by omega) (by omega)
  unfold parseISOLocal
  rw [show (String.mk (printLocalChars ⟨y, mo, dy, hh, mi, ss⟩)).data
        = printLocalChars ⟨y, mo, dy, hh, mi, ss⟩ from rfl,
    printLocalChars_eq]
  simp only [expect2_cons, expectLit_cons, e1, e2, e3, e4, e5, e6, e7, e8, e9,
    e10, e11, e12, e13, e14, v1, v2, v3, v4, v5, v6, v7, v8, v9, v10, v11, v12,
    v13, v14, List.isEmpty_nil, if_true, Option.some.injEq, LocalDT.mk.injEq]
  omega

set_option maxHeartbeats 1000000 in
theorem parseIxdtf_print (c : LocalDT) (hval : validLocalDT c = true)
    (off : List Char) (hoff : ∀ a ∈ off, isWsChar a = false ∧ a ≠ '[' ∧ a ≠ ']')
    (zn : List Char) (hzne : zn ≠ []) (hznr : ']' ∉ zn) :
    parseIxdtf ⟨printLocalChars c ++ off ++ ('[' :: (zn ++ [']']))⟩
      = ⟨some (ensureSeconds ⟨printLocalChars c⟩), some ⟨zn⟩⟩ := by
  have hsafe := printLocal_safe c hval
  have hpresafe : ∀ a ∈ printLocalChars c ++ off,
      isWsChar a = false ∧ a ≠ '[' ∧ a ≠ ']' := by
    intro a ha
    rcases List.mem_append.mp ha with hm | hm
    · exact hsafe a hm
    · exact hoff a hm
  have hpre : '[' ∉ printLocalChars c ++ off := by
    intro hm
    exact ((hpresafe _ hm).2.1) rfl
  have hheadWs : isWsChar (digitChar (c.year / 1000)) = false := by
    refine (hsafe _ ?_).1
    rw [printLocalChars_eq]
    exact List.mem_cons_self _ _
  have hhead : (printLocalChars c ++ off ++ ('[' :: (zn ++ [']']))).head?
      = some (digitChar (c.year / 1000)) := by
    rw [printLocalChars_eq]
    rfl
  have hlastform : printLocalChars c ++ off ++ ('[' :: (zn ++ [']']))
      = (printLocalChars c ++ off ++ '[' :: zn) ++ [']'] := by
    simp
  have hlast : (printLocalChars c ++ off ++ ('[' :: (zn ++ [']']))).getLast?
      = some ']' := by
    rw [hlastform]
    exact List.getLast?_concat _
  have htrim : trimChars (printLocalChars c ++ off ++ ('[' :: (zn ++ [']'])))
      = printLocalChars c ++ off ++ ('[' :: (zn ++ [']'])) := by
    apply trimChars_of_ends
    · intro a ha
      rw [hhead] at ha
      injection ha with ha
      rw [← ha]
      exact hheadWs
    · intro a ha
      rw [hlast] at ha
      injection ha with ha
      rw [← ha]
      decide
  have hne : (printLocalChars c ++ off ++ ('[' :: (zn ++ [']']))).isEmpty
      = false := by
    rw [printLocalChars_eq]
    rfl
  have hz := zoneScan_append (printLocalChars c ++ off) zn [] hpre hznr hzne
  simp only [List.reverse_nil, List.nil_append] at hz
  unfold parseIxdtf
  rw [show (String.mk (printLocalChars c ++ off ++ ('[' :: (zn ++ [']'])))).data
      = printLocalChars c ++ off ++ ('[' :: (zn ++ [']'])) from rfl]
  rw [htrim]
  simp only []
  rw [hne]
  simp only [Bool.false_eq_true, if_false]
  rw [hz]
  simp only []
  rw [trimChars_of_all _ (fun a ha => (hpresafe a ha).1)]
  rw [matchLocal_print c hval off]

set_option maxHeartbeats 1000000 in
theorem formatToIxdtf_eval (db : ZoneDB) (zname : String) (z : ZoneImpl)
    (hdb : db zname = some z) (guess : Int) (c : LocalDT)
    (hval : validLocalDT c = true) (T p q : Int)
    (hf : ∀ t, z.offsetAt t = if t < T then p else q)
    (hg : guess = p ∨ guess = q)
    (hzn : zname.data ≠ [])
    (hex : ∃ o, z.offsetAt (localSecs c - o * 60) = o) :
    ∃ o, z.offsetAt (localSecs c - o * 60) = o ∧
      formatToIxdtf db guess ⟨some ⟨printLocalChars c⟩, some zname⟩
        = some ⟨printLocalChars c ++ printOffsetChars z.fixedZero o
                 ++ ('[' :: (zname.data ++ [']']))⟩ := by
  obtain ⟨o, hfix, ho⟩ := fixOffset_noGap z.offsetAt T p q (localSecs c) guess hf hg hex
  refine ⟨o, ho, ?_⟩
  have hprint : (String.mk (printLocalChars c)).data = printLocalChars c := rfl
  have hprintne : (String.mk (printLocalChars c)).data.isEmpty = false := by
    rw [hprint, printLocalChars_eq]
    rfl
  unfold formatToIxdtf
  simp only [strTruthy, hprintne]
  rw [hdb]
  simp only []
  unfold luxonFromISO
  rw [parseISOLocal_print c hval]
  simp only [hval, if_true]
  rw [hfix]
  simp only []
  have hts : localSecs c - o * 60 + o * 60 = localSecs c := by ring
  rw [hts, secsToLocal_localSecs c hval]
  have hzne : zname.data.isEmpty = false := by
    cases hd : zname.data with
    | nil => exact absurd hd hzn
    | cons a as => rfl
  simp [hzne]

/-- C1: for every zone id and ZoneImpl with a single-transition offset rule
(the local shape of every IANA zone around the relevant instant), every
provisional offset the runtime can supply, and every valid wall time
`YYYY-MM-DDTHH:mm:ss` that resolves to a unique offset in the zone (no DST
gap or overlap), `parseIxdtf (formatToIxdtf v) = v`. -/
theorem c1_roundtrip (db : ZoneDB) (zname : String) (z : ZoneImpl)
    (hdb : db zname = some z) (guess T p q : Int)
    (hf : ∀ t, z.offsetAt t = if t < T then p else q)
    (hg : guess = p ∨ guess = q)
    (hp1 : -1440 ≤ p) (hp2 : p ≤ 1440) (hq1 : -1440 ≤ q) (hq2 : q ≤ 1440)
    (hzn : zname.data ≠ []) (hznr : ']' ∉ zname.data)
    (c : LocalDT) (hval : validLocalDT c = true)
    (hex : ∃ o, z.offsetAt (localSecs c - o * 60) = o)
    (huniq : ∀ o₁ o₂, z.offsetAt (localSecs c - o₁ * 60) = o₁ →
      z.offsetAt (localSecs c - o₂ * 60) = o₂ → o₁ = o₂) :
    ∃ s : String, formatToIxdtf db guess ⟨some ⟨printLocalChars c⟩, some zname⟩
        = some s ∧
      parseIxdtf s = ⟨some ⟨printLocalChars c⟩, some zname⟩ := by
  obtain ⟨o, ho, hfmt⟩ := formatToIxdtf_eval db zname z hdb guess c hval T p q
    hf hg hzn hex
  refine ⟨_, hfmt, ?_⟩
  have hoPQ : o = p ∨ o = q := by
    have h := hf (localSecs c - o * 60)
    rw [h] at ho
    split_ifs at ho <;> omega
  have hoff : ∀ a ∈ printOffsetChars z.fixedZero o,
      isWsChar a = false ∧ a ≠ '[' ∧ a ≠ ']' :=
    printOffset_safe z.fixedZero o (by omega) (by omega)
  rw [parseIxdtf_print c hval _ hoff zname.data hzn hznr,
    ensureSeconds_print c hval]

theorem c1_roundtrip_witness :
    ∃ s : String,
      formatToIxdtf c1DB (-360) ⟨some ⟨printLocalChars ⟨2025, 1, 15, 12, 0, 0⟩⟩,
          some "America/Chicago"⟩ = some s ∧
      parseIxdtf s = ⟨some ⟨printLocalChars ⟨2025, 1, 15, 12, 0, 0⟩⟩,
          some "America/Chicago"⟩ :=
  c1_roundtrip c1DB "America/Chicago" chicagoSpring rfl (-360)
    (utcSecs 2025 3 9 8 0 0) (-360) (-300) (fun t => rfl) (Or.inl rfl)
    (by decide) (by decide) (by decide) (by decide)
    (by decide) (by decide)
    ⟨2025, 1, 15, 12, 0, 0⟩ (by decide)
    ⟨-360, by decide⟩
    (by
      intro o₁ o₂ h1 h2
      simp only [chicagoSpring] at h1 h2
      split_ifs at h1 h2 <;> omega)

/-- C2: the code does NOT reject a DST-gap local time.  At the failing
input `2025-03-09T02:30:00` in America/Chicago (a nonexistent wall time),
`formatToIxdtf` returns the forward-shifted string
`2025-03-09T03:30:00-05:00[America/Chicago]` and `buildDatoOutput` returns
a full payload, for either provisional offset the runtime can supply —
because Luxon's `fixOffset` shifts gap times forward and leaves the
`DateTime` valid, so the code's `isValid` guard never fires. -/
theorem c2_dst_gap_not_rejected (guess : Int)
    (hg : guess = -360 ∨ guess = -300) :
    formatToIxdtf demoZoneDB guess
        ⟨some "2025-03-09T02:30:00", some "America/Chicago"⟩
      = some "2025-03-09T03:30:00-05:00[America/Chicago]" ∧
    buildDatoOutput demoZoneDB guess
        ⟨some "2025-03-09T02:30:00", some "America/Chicago"⟩ ≠ none := by
  rcases hg with rfl | rfl <;> exact ⟨by decide, by decide⟩

theorem c2_dst_gap_not_rejected_witness :
    formatToIxdtf demoZoneDB (-360)
        ⟨some "2025-03-09T02:30:00", some "America/Chicago"⟩
      = some "2025-03-09T03:30:00-05:00[America/Chicago]" ∧
    buildDatoOutput demoZoneDB (-360)
        ⟨some "2025-03-09T02:30:00", some "America/Chicago"⟩ ≠ none :=
  c2_dst_gap_not_rejected (-360) (Or.inl rfl)

/-- C3: parsing `1996-12-19T16:39:57-08:00[America/Los_Angeles]` discards
the `-08:00` offset, yielding the wall time and zone only, and formatting
that result re-derives `-08:00` from the zone rules and reproduces the
identical string (for either provisional offset the runtime can supply
for this zone, PST or PDT). -/
theorem c3_offset_discard_roundtrip (guess : Int)
    (hg : guess = -480 ∨ guess = -420) :
    parseIxdtf "1996-12-19T16:39:57-08:00[America/Los_Angeles]"
      = ⟨some "1996-12-19T16:39:57", some "America/Los_Angeles"⟩ ∧
    formatToIxdtf demoZoneDB guess
        ⟨some "1996-12-19T16:39:57", some "America/Los_Angeles"⟩
      = some "1996-12-19T16:39:57-08:00[America/Los_Angeles]" := by
  rcases hg with rfl | rfl <;> exact ⟨by decide, by decide⟩

theorem c3_offset_discard_roundtrip_witness :
    parseIxdtf "1996-12-19T16:39:57-08:00[America/Los_Angeles]"
      = ⟨some "1996-12-19T16:39:57", some "America/Los_Angeles"⟩ ∧
    formatToIxdtf demoZoneDB (-480)
        ⟨some "1996-12-19T16:39:57", some "America/Los_Angeles"⟩
      = some "1996-12-19T16:39:57-08:00[America/Los_Angeles]" :=
  c3_offset_discard_roundtrip (-480) (Or.inl rfl)

/-- C4: the structured payload for
`{1996-12-19T16:39:57, America/Los_Angeles}`: zone, `-08:00` offset, date,
24-hour and 12-hour times, `pm` marker and epoch-seconds string
`851042397`, all projections of the one resolved instant. -/
theorem c4_structured_output (guess : Int)
    (hg : guess = -480 ∨ guess = -420) :
    buildDatoOutput demoZoneDB guess
        ⟨some "1996-12-19T16:39:57", some "America/Los_Angeles"⟩
      = some { zonedDateTime := "1996-12-19T16:39:57-08:00[America/Los_Angeles]",
               dateTime := "1996-12-19T16:39:57-08:00",
               zone := "America/Los_Angeles",
               offset := "-08:00",
               date := "1996-12-19",
               time_24hr := "16:39:57",
               time_12hr := "04:39:57",
               ampm := "pm",
               timestamp := "851042397" } := by
  rcases hg with rfl | rfl <;> decide

theorem c4_structured_output_witness :
    buildDatoOutput demoZoneDB (-480)
        ⟨some "1996-12-19T16:39:57", some "America/Los_Angeles"⟩
      = some { zonedDateTime := "1996-12-19T16:39:57-08:00[America/Los_Angeles]",
               dateTime := "1996-12-19T16:39:57-08:00",
               zone := "America/Los_Angeles",
               offset := "-08:00",
               date := "1996-12-19",
               time_24hr := "16:39:57",
               time_12hr := "04:39:57",
               ampm := "pm",
               timestamp := "851042397" } :=
  c4_structured_output (-480) (Or.inl rfl)

theorem strTruthy_none : strTruthy none = false := rfl

theorem strTruthy_some_true (s : String) (h : s.data ≠ []) :
    strTruthy (some s) = true := by
  cases hd : s.data with
  | nil => exact absurd hd h
  | cons a l =>
    rw [show strTruthy (some s) = !s.data.isEmpty from rfl, hd]
    rfl

/-- C5: legacy structured-input fallback.  (1) The concrete legacy shape
`{zone: "Europe/Rome", date: "1996-12-19", time_24hr: "16:39:57"}` parses
to the joined local datetime with that zone.  (2) When both `zone` and
`dateTime` are truthy strings, the result is the same as for an object
with only those two fields (the later strategies are never consulted).
(3) Otherwise, truthy `zone`/`date`/`time_24hr` fields are joined with
`T` and seconds ensured; (4) likewise with the legacy `time` field when
`time_24hr` is not a string.  (5) When both shapes fail, an embedded
`zonedDateTime` string is re-parsed as IXDTF.  (6) When that is not a
string either, the result is `{null, null}`. -/
theorem c5_legacy_fallback :
    (parseDatoValue (JSVal.vObj [("zone", JSVal.vStr "Europe/Rome"),
        ("date", JSVal.vStr "1996-12-19"), ("time_24hr", JSVal.vStr "16:39:57")])
      = ⟨some "1996-12-19T16:39:57", some "Europe/Rome"⟩)
    ∧ (∀ fs z d, getStrField fs "zone" = some z → z.data ≠ [] →
        getStrField fs "dateTime" = some d → d.data ≠ [] →
        parseDatoValue (JSVal.vObj fs)
          = parseDatoValue (JSVal.vObj [("zone", JSVal.vStr z),
              ("dateTime", JSVal.vStr d)]))
    ∧ (∀ fs z dt t24, getStrField fs "zone" = some z → z.data ≠ [] →
        strTruthy (getStrField fs "dateTime") = false →
        getStrField fs "date" = some dt → dt.data ≠ [] →
        getStrField fs "time_24hr" = some t24 → t24.data ≠ [] →
        parseDatoValue (JSVal.vObj fs)
          = ⟨some (ensureSeconds (dt ++ "T" ++ t24)), some z⟩)
    ∧ (∀ fs z dt t, getStrField fs "zone" = some z → z.data ≠ [] →
        strTruthy (getStrField fs "dateTime") = false →
        getStrField fs "date" = some dt → dt.data ≠ [] →
        getStrField fs "time_24hr" = none →
        getStrField fs "time" = some t → t.data ≠ [] →
        parseDatoValue (JSVal.vObj fs)
          = ⟨some (ensureSeconds (dt ++ "T" ++ t)), some z⟩)
    ∧ (∀ fs s,
        (strTruthy (getStrField fs "zone")
          && strTruthy (getStrField fs "dateTime")) = false →
        (strTruthy (getStrField fs "zone") && strTruthy (getStrField fs "date")
          && (strTruthy (getStrField fs "time_24hr")
              || strTruthy (getStrField fs "time"))) = false →
        fs.lookup "zonedDateTime" = some (JSVal.vStr s) →
        parseDatoValue (JSVal.vObj fs) = parseIxdtf s)
    ∧ (∀ fs,
        (strTruthy (getStrField fs "zone")
          && strTruthy (getStrField fs "dateTime")) = false →
        (strTruthy (getStrField fs "zone") && strTruthy (getStrField fs "date")
          && (strTruthy (getStrField fs "time_24hr")
              || strTruthy (getStrField fs "time"))) = false →
        (∀ s, fs.lookup "zonedDateTime" ≠ some (JSVal.vStr s)) →
        parseDatoValue (JSVal.vObj fs) = ⟨none, none⟩) := by
  refine ⟨by decide, ?_, ?_, ?_, ?_, ?_⟩
  · intro fs z d hz hzne hd hdne
    have h1 := strTruthy_some_true z hzne
    have h2 := strTruthy_some_true d hdne
    simp only [parseDatoValue, hz, hd, h1, h2, Bool.and_self, if_true]
    have hz2 : getStrField [("zone", JSVal.vStr z), ("dateTime", JSVal.vStr d)]
        "zone" = some z := rfl
    have hd2 : getStrField [("zone", JSVal.vStr z), ("dateTime", JSVal.vStr d)]
        "dateTime" = some d := rfl
    simp only [hz2, hd2, h1, h2, Bool.and_self, if_true]
  · intro fs z dt t24 hz hzne hdt hdate hdatene ht24 ht24ne
    have h1 := strTruthy_some_true z hzne
    have h3 := strTruthy_some_true dt hdatene
    have h4 := strTruthy_some_true t24 ht24ne
    simp only [parseDatoValue, hz, hdate, ht24, h1, h3, h4, hdt,
      Bool.and_false, Bool.false_eq_true, if_false, Bool.and_self,
      Bool.true_or, Bool.or_self, Bool.and_true, Bool.true_and, if_true,
      Option.getD_some]
  · intro fs z dt t hz hzne hdt hdate hdatene ht24 ht htne
    have h1 := strTruthy_some_true z hzne
    have h3 := strTruthy_some_true dt hdatene
    have h4 := strTruthy_some_true t htne
    simp only [parseDatoValue, hz, hdate, ht24, ht, h1, h3, h4, hdt,
      Bool.and_false, Bool.false_eq_true, if_false, Bool.and_self,
      strTruthy_none, Bool.false_or, Bool.true_or, Bool.or_self, Bool.and_true,
      Bool.true_and, if_true, Option.getD_some]
  · intro fs s hc1 hc2 hlook
    simp only [parseDatoValue, hc1, hc2, Bool.false_eq_true, if_false, hlook]
  · intro fs hc1 hc2 hlook
    simp only [parseDatoValue, hc1, hc2, Bool.false_eq_true, if_false]

theorem c5_legacy_fallback_witness :
    (parseDatoValue (JSVal.vObj [("zone", JSVal.vStr "Europe/Rome"),
        ("dateTime", JSVal.vStr "1996-12-19T16:39:57+01:00"),
        ("zonedDateTime", JSVal.vStr "2000-01-01T00:00:00Z[UTC]")])
      = parseDatoValue (JSVal.vObj [("zone", JSVal.vStr "Europe/Rome"),
          ("dateTime", JSVal.vStr "1996-12-19T16:39:57+01:00")]))
    ∧ (parseDatoValue (JSVal.vObj [("zone", JSVal.vStr "Europe/Rome"),
        ("date", JSVal.vStr "1996-12-19"), ("time_24hr", JSVal.vStr "16:39:57")])
      = ⟨some (ensureSeconds ("1996-12-19" ++ "T" ++ "16:39:57")),
         some "Europe/Rome"⟩)
    ∧ (parseDatoValue (JSVal.vObj [("zone", JSVal.vStr "Europe/Rome"),
        ("date", JSVal.vStr "1996-12-19"), ("time", JSVal.vStr "16:39:57")])
      = ⟨some (ensureSeconds ("1996-12-19" ++ "T" ++ "16:39:57")),
         some "Europe/Rome"⟩)
    ∧ (parseDatoValue (JSVal.vObj [("zonedDateTime",
        JSVal.vStr "1996-12-19T16:39:57-08:00[America/Los_Angeles]")])
      = parseIxdtf "1996-12-19T16:39:57-08:00[America/Los_Angeles]")
    ∧ (parseDatoValue (JSVal.vObj []) = ⟨none, none⟩) :=
  ⟨c5_legacy_fallback.2.1 _ "Europe/Rome" "1996-12-19T16:39:57+01:00"
      rfl (by decide) rfl (by decide),
   c5_legacy_fallback.2.2.1 _ "Europe/Rome" "1996-12-19" "16:39:57"
      rfl (by decide) rfl rfl (by decide) rfl (by decide),
   c5_legacy_fallback.2.2.2.1 _ "Europe/Rome" "1996-12-19" "16:39:57"
      rfl (by decide) rfl rfl (by decide) rfl rfl (by decide),
   c5_legacy_fallback.2.2.2.2.1 _
      "1996-12-19T16:39:57-08:00[America/Los_Angeles]" rfl rfl rfl,
   c5_legacy_fallback.2.2.2.2.2 _ rfl rfl
      (fun s h => Option.noConfusion h)⟩

theorem c8_partial_counterexample :
    parseIxdtf "[Europe/Rome]"
      = ⟨none, some "Europe/Rome"⟩ ∧
    ¬ ((parseIxdtf "[Europe/Rome]").dateTime ≠ none ∧
       (parseIxdtf "[Europe/Rome]").timeZone ≠ none ∨
       (parseIxdtf "[Europe/Rome]").dateTime = none ∧
       (parseIxdtf "[Europe/Rome]").timeZone = none) := by
  exact ⟨by decide, by decide⟩

/-- C8 (amended): parse results may be partially populated — `parseIxdtf`
returns a zone with a null datetime when only the bracketed zone is
present — but any `ZonedValue` missing (or holding an empty string in)
either field is treated as "no value" downstream: `formatToIxdtf` returns
null and `buildDatoOutput` returns the empty payload. -/
theorem c8_partial_treated_as_empty (db : ZoneDB) (guess : Int) (v : ZonedValue)
    (h : strTruthy v.dateTime = false ∨ strTruthy v.timeZone = false) :
    formatToIxdtf db guess v = none ∧ buildDatoOutput db guess v = none := by
  constructor
  · unfold formatToIxdtf
    rcases h with h | h <;> rw [h] <;> simp
  · unfold buildDatoOutput
    rcases h with h | h <;> rw [h] <;> simp

theorem c8_partial_treated_as_empty_witness :
    formatToIxdtf demoZoneDB 0 (parseIxdtf "[Europe/Rome]") = none ∧
    buildDatoOutput demoZoneDB 0 (parseIxdtf "[Europe/Rome]") = none :=
  c8_partial_treated_as_empty demoZoneDB 0 (parseIxdtf "[Europe/Rome]")
    (Or.inl (by decide))

theorem c9_not_idempotent_counterexample :
    parseDatoValue (zonedValueToJS (parseDatoValue
        (JSVal.vObj [("zone", JSVal.vStr "Europe/Rome"),
                     ("dateTime", JSVal.vStr "1996-12-19T16:39:57")])))
      ≠ parseDatoValue (JSVal.vObj [("zone", JSVal.vStr "Europe/Rome"),
                     ("dateTime", JSVal.vStr "1996-12-19T16:39:57")]) := by
  decide

/-- C9 (amended): the second application of `parseDatoValue` to its own
output (a `ZonedValue` object, whose fields are named `dateTime` and
`timeZone` rather than the stored-shape names the parser reads) always
returns `{null, null}`; so the second application is a no-op only when
the first already returned `{null, null}`. -/
theorem c9_second_parse_empty (x : JSVal) :
    parseDatoValue (zonedValueToJS (parseDatoValue x)) = ⟨none, none⟩ := by
  rcases parseDatoValue x with ⟨dt, tz⟩
  rcases dt with _ | d <;> rcases tz with _ | z <;> rfl

theorem c10_empty_string_counterexample :
    parseDatoValue (JSVal.vObj [("zone", JSVal.vStr "Europe/Rome"),
        ("dateTime", JSVal.vStr ""), ("date", JSVal.vStr "1996-12-19"),
        ("time_24hr", JSVal.vStr "16:39:57")])
      = ⟨some "1996-12-19T16:39:57", some "Europe/Rome"⟩ ∧
    parseDatoValue (JSVal.vObj [("zone", JSVal.vStr "Europe/Rome"),
        ("dateTime", JSVal.vStr ""), ("date", JSVal.vStr "1996-12-19"),
        ("time_24hr", JSVal.vStr "16:39:57")])
      ≠ ⟨none, some "Europe/Rome"⟩ := by
  exact ⟨by decide, by decide⟩

/-- C10 (amended): for every object input with a NON-EMPTY string `zone`
field and a NON-EMPTY string `dateTime` field whose value does not start
with a `YYYY-MM-DDTHH:mm` prefix, `parseDatoValue` returns
`{dateTime: null, timeZone: zone}` without trying the later fallback
strategies.  (The empty string is a string without that prefix, but it is
falsy in JavaScript, so the code falls through to the later strategies —
the original claim fails on it.) -/
theorem c10_short_circuit (fs : List (String × JSVal)) (z d : String)
    (hz : getStrField fs "zone" = some z) (hzne : z.data ≠ [])
    (hd : getStrField fs "dateTime" = some d) (hdne : d.data ≠ [])
    (hnm : matchLocal d.data = none) :
    parseDatoValue (JSVal.vObj fs) = ⟨none, some z⟩ := by
  have h1 := strTruthy_some_true z hzne
  have h2 := strTruthy_some_true d hdne
  simp only [parseDatoValue, hz, hd, h1, h2, Bool.and_self, if_true, hnm]

theorem c10_short_circuit_witness :
    parseDatoValue (JSVal.vObj [("zone", JSVal.vStr "Europe/Rome"),
        ("dateTime", JSVal.vStr "tomorrow"), ("date", JSVal.vStr "1996-12-19"),
        ("time_24hr", JSVal.vStr "16:39:57")])
      = ⟨none, some "Europe/Rome"⟩ :=
  c10_short_circuit _ "Europe/Rome" "tomorrow" rfl (by decide) rfl (by decide)
    (by decide)

/- ===================== Stable sort lemmas ===================== -/

theorem insertCmp_perm {α : Type} (cmp : α → α → Int) (a : α) (l : List α) :
    (insertCmp cmp a l).Perm (a :: l) := by
  induction l with
  | nil => simp [insertCmp]
  | cons b bs ih =>
    unfold insertCmp
    split_ifs with h
    · exact List.Perm.refl _
    · exact (List.Perm.cons b ih).trans (List.Perm.swap a b bs)

theorem jsSortStable_perm_aux {α : Type} (cmp : α → α → Int)
    (l : List α) : ∀ acc : List α,
    (l.foldl (fun acc a => insertCmp cmp a acc) acc).Perm (l ++ acc) := by
  induction l with
  | nil => intro acc; simp
  | cons a l ih =>
    intro acc
    simp only [List.foldl_cons, List.cons_append]
    exact (ih (insertCmp cmp a acc)).trans
      ((List.Perm.append_left l (insertCmp_perm cmp a acc)).trans
        List.perm_middle)

theorem jsSortStable_perm {α : Type} (cmp : α → α → Int) (l : List α) :
    (jsSortStable cmp l).Perm l := by
  have h := jsSortStable_perm_aux cmp l []
  simpa [jsSortStable] using h

theorem mem_insertCmp {α : Type} (cmp : α → α → Int) (a c : α) (l : List α) :
    c ∈ insertCmp cmp a l ↔ c = a ∨ c ∈ l := by
  rw [(insertCmp_perm cmp a l).mem_iff, List.mem_cons]

theorem insertCmp_pairwise {α : Type} (cmp : α → α → Int)
    (hanti : ∀ a b, 0 ≤ cmp a b → cmp b a ≤ 0)
    (htrans : ∀ a b c, cmp a b ≤ 0 → cmp b c ≤ 0 → cmp a c ≤ 0)
    (a : α) (l : List α) (hl : l.Pairwise (fun x y => cmp x y ≤ 0)) :
    (insertCmp cmp a l).Pairwise (fun x y => cmp x y ≤ 0) := by
  induction l with
  | nil => simp [insertCmp]
  | cons b bs ih =>
    rcases List.pairwise_cons.mp hl with ⟨hb, hbs⟩
    unfold insertCmp
    split_ifs with h
    · refine List.pairwise_cons.mpr ⟨?_, hl⟩
      intro c hc
      rcases List.mem_cons.mp hc with rfl | hc
      · exact le_of_lt h
      · exact htrans a b c (le_of_lt h) (hb c hc)
    · refine List.pairwise_cons.mpr ⟨?_, ih hbs⟩
      intro c hc
      rcases (mem_insertCmp cmp a c bs).mp hc with rfl | hc
      · exact hanti _ b (by omega)
      · exact hb c hc

theorem jsSortStable_pairwise {α : Type} (cmp : α → α → Int)
    (hanti : ∀ a b, 0 ≤ cmp a b → cmp b a ≤ 0)
    (htrans : ∀ a b c, cmp a b ≤ 0 → cmp b c ≤ 0 → cmp a c ≤ 0)
    (l : List α) :
    (jsSortStable cmp l).Pairwise (fun x y => cmp x y ≤ 0) := by
  suffices h : ∀ (l acc : List α), acc.Pairwise (fun x y => cmp x y ≤ 0) →
      (l.foldl (fun acc a => insertCmp cmp a acc) acc).Pairwise
        (fun x y => cmp x y ≤ 0) from h l [] List.Pairwise.nil
  intro l
  induction l with
  | nil => intro acc h; simpa using h
  | cons a l ih =>
    intro acc hacc
    simp only [List.foldl_cons]
    exact ih _ (insertCmp_pairwise cmp hanti htrans a acc hacc)

theorem insertCmp_filter_key {α : Type} (κ : α → Int) (k : Int) (a : α)
    (l : List α) (hl : l.Pairwise (fun x y => κ x ≤ κ y)) :
    (insertCmp (fun x y => κ x - κ y) a l).filter (fun o => decide (κ o = k))
      = if κ a = k then l.filter (fun o => decide (κ o = k)) ++ [a]
        else l.filter (fun o => decide (κ o = k)) := by
  induction l with
  | nil =>
    by_cases h : κ a = k <;> simp [insertCmp, h]
  | cons b bs ih =>
    rcases List.pairwise_cons.mp hl with ⟨hb, hbs⟩
    unfold insertCmp
    by_cases h : κ a - κ b < 0
    · rw [if_pos h]
      by_cases hak : κ a = k
      · have hnil : (b :: bs).filter (fun o => decide (κ o = k)) = [] := by
          apply List.filter_eq_nil_iff.mpr
          intro c hc
          rcases List.mem_cons.mp hc with rfl | hc
          · simp only [decide_eq_true_eq]; omega
          · have := hb c hc; simp only [decide_eq_true_eq]; omega
        rw [if_pos hak, hnil]
        simp [List.filter_cons, hak, hnil]
      · rw [if_neg hak]
        simp [List.filter_cons, hak]
    · rw [if_neg h, List.filter_cons, ih hbs]
      by_cases hbk : κ b = k <;> by_cases hak : κ a = k <;>
        simp [hbk, hak, List.filter_cons]

theorem jsSortStable_filter_key_aux {α : Type} (κ : α → Int) (k : Int)
    (l : List α) : ∀ acc : List α, acc.Pairwise (fun x y => κ x ≤ κ y) →
    (l.foldl (fun acc a => insertCmp (fun x y => κ x - κ y) a acc) acc).filter
        (fun o => decide (κ o = k))
      = acc.filter (fun o => decide (κ o = k))
          ++ l.filter (fun o => decide (κ o = k)) := by
  induction l with
  | nil => intro acc _; simp
  | cons a l ih =>
    intro acc hacc
    simp only [List.foldl_cons]
    have hins : (insertCmp (fun x y => κ x - κ y) a acc).Pairwise
        (fun x y => κ x ≤ κ y) := by
      have h1 : acc.Pairwise (fun x y => (fun x y => κ x - κ y) x y ≤ 0) :=
        hacc.imp (by intro x y h; show κ x - κ y ≤ 0; omega)
      have h2 := insertCmp_pairwise (fun x y => κ x - κ y)
        (by intro u v h
            show κ v - κ u ≤ 0
            have h' : 0 ≤ κ u - κ v := h
            omega)
        (by intro u v w hu hv
            show κ u - κ w ≤ 0
            have h1' : κ u - κ v ≤ 0 := hu
            have h2' : κ v - κ w ≤ 0 := hv
            omega) a acc h1
      exact h2.imp (by intro x y h; have h' : κ x - κ y ≤ 0 := h; omega)
    rw [ih _ hins, insertCmp_filter_key κ k a acc hacc]
    by_cases hak : κ a = k <;> simp [hak, List.filter_cons, List.append_assoc]

theorem jsSortStable_filter_key {α : Type} (κ : α → Int) (k : Int)
    (l : List α) :
    (jsSortStable (fun x y => κ x - κ y) l).filter (fun o => decide (κ o = k))
      = l.filter (fun o => decide (κ o = k)) := by
  have h := jsSortStable_filter_key_aux κ k l [] List.Pairwise.nil
  simpa [jsSortStable] using h

/- ===================== Comparator lemmas ===================== -/

theorem charListCmp_swap : ∀ as bs : List Char,
    charListCmp bs as = -charListCmp as bs := by
  intro as
  induction as with
  | nil => intro bs; cases bs <;> simp [charListCmp]
  | cons a as ih =>
    intro bs
    cases bs with
    | nil => simp [charListCmp]
    | cons b bs =>
      simp only [charListCmp]
      rcases lt_trichotomy a.toNat b.toNat with h | h | h
      · rw [if_neg (by omega), if_pos h, if_pos h]; decide
      · rw [if_neg (by omega), if_neg (by omega), if_neg (by omega),
          if_neg (by omega)]
        exact ih bs
      · rw [if_pos h, if_neg (by omega), if_pos h]

theorem charListCmp_eq_zero_iff : ∀ as bs : List Char,
    charListCmp as bs = 0 ↔ as = bs := by
  intro as
  induction as with
  | nil => intro bs; cases bs <;> simp [charListCmp]
  | cons a as ih =>
    intro bs
    cases bs with
    | nil => simp [charListCmp]
    | cons b bs =>
      simp only [charListCmp, List.cons.injEq]
      rcases lt_trichotomy a.toNat b.toNat with h | h | h
      · rw [if_pos h]
        constructor
        · intro hc; exact absurd hc (by decide)
        · rintro ⟨rfl, rfl⟩; exact absurd h (lt_irrefl _)
      · have hab : a = b := by
          apply Char.ext
          apply UInt32.toNat.inj
          exact h
        rw [if_neg (by omega), if_neg (by omega)]
        constructor
        · intro hc; exact ⟨hab, (ih bs).mp hc⟩
        · rintro ⟨rfl, rfl⟩; exact (ih as).mpr rfl
      · rw [if_neg (by omega), if_pos h]
        constructor
        · intro hc; exact absurd hc (by decide)
        · rintro ⟨rfl, rfl⟩; exact absurd h (lt_irrefl _)

theorem charListCmp_trans : ∀ as bs cs : List Char,
    charListCmp as bs ≤ 0 → charListCmp bs cs ≤ 0 → charListCmp as cs ≤ 0 := by
  intro as
  induction as with
  | nil => intro bs cs _ _; cases cs <;> simp [charListCmp]
  | cons a as ih =>
    intro bs cs h1 h2
    cases bs with
    | nil => simp [charListCmp] at h1
    | cons b bs =>
      cases cs with
      | nil => simp [charListCmp] at h2
      | cons c cs =>
        simp only [charListCmp] at h1 h2 ⊢
        split_ifs at h1 h2 ⊢ <;>
          first
            | omega
            | exact ih bs cs h1 h2
            | (exfalso; omega)

theorem strCmpInt_swap (a b : String) : strCmpInt b a = -strCmpInt a b :=
  charListCmp_swap a.data b.data

theorem strCmpInt_eq_zero_iff (a b : String) : strCmpInt a b = 0 ↔ a = b := by
  rw [strCmpInt, charListCmp_eq_zero_iff]
  constructor
  · intro h
    cases a
    cases b
    exact congrArg String.mk h
  · intro h; rw [h]

theorem strCmpInt_trans (a b c : String) (h1 : strCmpInt a b ≤ 0)
    (h2 : strCmpInt b c ≤ 0) : strCmpInt a c ≤ 0 :=
  charListCmp_trans a.data b.data c.data h1 h2

theorem regularCmp_anti (a b : ZoneOption) (h : 0 ≤ regularCmp a b) :
    regularCmp b a ≤ 0 := by
  unfold regularCmp at h ⊢
  by_cases hg : a.group = b.group
  · simp only [hg, ne_eq, not_true_eq_false, if_false] at h ⊢
    by_cases ho : a.offsetMin - b.offsetMin = 0
    · simp only [ho, show b.offsetMin - a.offsetMin = 0 by omega, ne_eq,
        not_true_eq_false, if_false] at h ⊢
      rw [strCmpInt_swap]; omega
    · simp only [ne_eq, ho, show ¬b.offsetMin - a.offsetMin = 0 by omega,
        not_false_eq_true, if_true] at h ⊢
      omega
  · simp only [ne_eq, hg, Ne.symm hg, not_false_eq_true, if_true] at h ⊢
    rw [strCmpInt_swap]; omega

theorem regularCmp_trans (a b c : ZoneOption) (h1 : regularCmp a b ≤ 0)
    (h2 : regularCmp b c ≤ 0) : regularCmp a c ≤ 0 := by
  unfold regularCmp at h1 h2 ⊢
  by_cases hab : a.group = b.group <;> by_cases hbc : b.group = c.group
  · have hac : a.group = c.group := hab.trans hbc
    simp only [hab, hbc, ne_eq, not_true_eq_false, if_false] at h1 h2 ⊢
    by_cases oab : a.offsetMin - b.offsetMin = 0 <;>
      by_cases obc : b.offsetMin - c.offsetMin = 0
    · have oac : a.offsetMin - c.offsetMin = 0 := by omega
      simp [oab, obc, oac] at h1 h2 ⊢
      exact strCmpInt_trans _ _ _ h1 h2
    · have oac : ¬a.offsetMin - c.offsetMin = 0 := by omega
      simp [oab, obc, oac] at h1 h2 ⊢
      omega
    · have oac : ¬a.offsetMin - c.offsetMin = 0 := by omega
      simp [oab, obc, oac] at h1 h2 ⊢
      omega
    · have oac : ¬a.offsetMin - c.offsetMin = 0 := by omega
      simp [oab, obc, oac] at h1 h2 ⊢
      omega
  · have hac : ¬a.group = c.group := by rw [hab]; exact hbc
    simp only [hab, hbc, hac, ne_eq, not_true_eq_false, if_false,
      not_false_eq_true, if_true] at h1 h2 ⊢
    exact h2
  · have hac : ¬a.group = c.group := by rw [← hbc]; exact hab
    simp only [hab, hbc, hac, ne_eq, not_true_eq_false, if_false,
      not_false_eq_true, if_true] at h1 h2 ⊢
    exact h1
  · by_cases hac : a.group = c.group
    · exfalso
      simp only [hab, hbc, ne_eq, not_false_eq_true, if_true] at h1 h2
      rw [← hac] at h2
      rw [strCmpInt_swap] at h2
      have hz : strCmpInt a.group b.group = 0 := by omega
      exact hab ((strCmpInt_eq_zero_iff _ _).mp hz)
    · simp only [hab, hbc, hac, ne_eq, not_false_eq_true, if_true] at h1 h2 ⊢
      exact strCmpInt_trans _ _ _ h1 h2

theorem regularCmp_le_spec (a b : ZoneOption) (h : regularCmp a b ≤ 0) :
    strCmpInt a.group b.group < 0 ∨
      (a.group = b.group ∧ (a.offsetMin < b.offsetMin ∨
        (a.offsetMin = b.offsetMin ∧ strCmpInt a.label b.label ≤ 0))) := by
  unfold regularCmp at h
  by_cases hg : a.group = b.group
  · right
    refine ⟨hg, ?_⟩
    simp only [hg, ne_eq, not_true_eq_false, if_false] at h
    by_cases ho : a.offsetMin - b.offsetMin = 0
    · right
      refine ⟨by omega, ?_⟩
      simp only [ho, ne_eq, not_true_eq_false, if_false] at h
      exact h
    · left
      simp only [ne_eq, ho, not_false_eq_true, if_true] at h
      omega
  · left
    simp only [ne_eq, hg, not_false_eq_true, if_true] at h
    have hne : ¬strCmpInt a.group b.group = 0 := fun hc =>
      hg ((strCmpInt_eq_zero_iff _ _).mp hc)
    omega

theorem prioO_le_utc (p : ZoneOptionsParams) (a b : ZoneOption)
    (h : prioO p a ≤ prioO p b) (hb : b.tz = "UTC") : a.tz = "UTC" := by
  unfold prioO priorityOf at h
  rw [hb, if_pos rfl] at h
  by_contra hc
  rw [if_neg hc] at h
  split_ifs at h <;> omega

/-- C6: zone option ranking.  In `buildZoneOptions p` the suggested block
comes first: the first `suggestedTimeZones.length` entries carry the
suggested group label, are a permutation of the suggested zones, are
ordered by non-decreasing priority (UTC 0, site zone 1, browser zone 2,
others 3) — in particular every UTC entry comes before every non-UTC
entry, regardless of input order — and entries of equal priority keep
their input order (stability).  The remaining entries are a permutation
of `timeZones` sorted by group label lexicographically, then numeric
offset ascending, then display label. -/
theorem c6_option_ranking (p : ZoneOptionsParams) :
    (((buildZoneOptions p).take p.suggestedTimeZones.length).map
        ZoneOption.tz).Perm p.suggestedTimeZones ∧
    (∀ o ∈ (buildZoneOptions p).take p.suggestedTimeZones.length,
        o.group = p.suggestedLabel) ∧
    ((buildZoneOptions p).take p.suggestedTimeZones.length).Pairwise
        (fun a b => prioO p a ≤ prioO p b) ∧
    ((buildZoneOptions p).take p.suggestedTimeZones.length).Pairwise
        (fun a b => b.tz = "UTC" → a.tz = "UTC") ∧
    (∀ k : Int, ((buildZoneOptions p).take p.suggestedTimeZones.length).filter
          (fun o => decide (prioO p o = k))
        = (p.suggestedTimeZones.map (mkSuggestedOption p)).filter
          (fun o => decide (prioO p o = k))) ∧
    (((buildZoneOptions p).drop p.suggestedTimeZones.length).map
        ZoneOption.tz).Perm p.timeZones ∧
    ((buildZoneOptions p).drop p.suggestedTimeZones.length).Pairwise
        (fun a b => strCmpInt a.group b.group < 0 ∨
          (a.group = b.group ∧ (a.offsetMin < b.offsetMin ∨
            (a.offsetMin = b.offsetMin ∧
              strCmpInt a.label b.label ≤ 0)))) := by
  have hlenA : (jsSortStable (suggestedCmp p)
      (p.suggestedTimeZones.map (mkSuggestedOption p))).length
        = p.suggestedTimeZones.length := by
    rw [(jsSortStable_perm _ _).length_eq, List.length_map]
  have htake : (buildZoneOptions p).take p.suggestedTimeZones.length
      = jsSortStable (suggestedCmp p)
          (p.suggestedTimeZones.map (mkSuggestedOption p)) := by
    rw [buildZoneOptions, List.take_left' hlenA]
  have hdrop : (buildZoneOptions p).drop p.suggestedTimeZones.length
      = jsSortStable regularCmp (p.timeZones.map (mkRegularOption p)) := by
    rw [buildZoneOptions, List.drop_left' hlenA]
  rw [htake, hdrop]
  have hpermS := jsSortStable_perm (suggestedCmp p)
    (p.suggestedTimeZones.map (mkSuggestedOption p))
  have hpermR := jsSortStable_perm regularCmp
    (p.timeZones.map (mkRegularOption p))
  have hcmpS : suggestedCmp p = fun a b => prioO p a - prioO p b := rfl
  have h3 : (jsSortStable (suggestedCmp p)
      (p.suggestedTimeZones.map (mkSuggestedOption p))).Pairwise
        (fun a b => prioO p a ≤ prioO p b) := by
    have h := jsSortStable_pairwise (suggestedCmp p)
      (by intro a b h
          have h' : 0 ≤ prioO p a - prioO p b := h
          show prioO p b - prioO p a ≤ 0
          omega)
      (by intro a b c h1 h2
          have h1' : prioO p a - prioO p b ≤ 0 := h1
          have h2' : prioO p b - prioO p c ≤ 0 := h2
          show prioO p a - prioO p c ≤ 0
          omega)
      (p.suggestedTimeZones.map (mkSuggestedOption p))
    exact h.imp (by
      intro a b h
      have h' : prioO p a - prioO p b ≤ 0 := h
      omega)
  refine ⟨?_, ?_, h3, ?_, ?_, ?_, ?_⟩
  · have h1 := hpermS.map ZoneOption.tz
    rw [List.map_map] at h1
    have h2 : p.suggestedTimeZones.map (ZoneOption.tz ∘ mkSuggestedOption p)
        = p.suggestedTimeZones := by
      have hco : ZoneOption.tz ∘ mkSuggestedOption p = id := funext fun _ => rfl
      rw [hco, List.map_id]
    rw [h2] at h1
    exact h1
  · intro o ho
    rcases List.mem_map.mp (hpermS.mem_iff.mp ho) with ⟨tz, _, rfl⟩
    rfl
  · exact h3.imp (fun h hb => prioO_le_utc p _ _ h hb)
  · intro k
    rw [hcmpS]
    exact jsSortStable_filter_key (prioO p) k _
  · have h1 := hpermR.map ZoneOption.tz
    rw [List.map_map] at h1
    have h2 : p.timeZones.map (ZoneOption.tz ∘ mkRegularOption p)
        = p.timeZones := by
      have hco : ZoneOption.tz ∘ mkRegularOption p = id := funext fun _ => rfl
      rw [hco, List.map_id]
    rw [h2] at h1
    exact h1
  · have h := jsSortStable_pairwise regularCmp regularCmp_anti regularCmp_trans
      (p.timeZones.map (mkRegularOption p))
    exact h.imp (fun h => regularCmp_le_spec _ _ h)

/- ===================== Autocomplete filter lemmas ===================== -/

theorem filterZoneOptions_mem (opts : List ZoneOption) (q : String)
    (o : ZoneOption) :
    o ∈ filterZoneOptions opts q ↔
      o ∈ opts ∧ ∀ t ∈ queryTokens q, hasSubstr o.searchHay.data t = true := by
  simp only [filterZoneOptions, queryTokens]
  split_ifs with h1 h2
  · have hq : trimChars q.data = [] := by
      cases hq : trimChars q.data with
      | nil => rfl
      | cons c cs => rw [hq] at h1; simp [List.isEmpty] at h1
    rw [hq]
    simp [normalizeForSearch, splitRuns, splitRunsAux]
  · have hn : (normalizeForSearch ⟨trimChars q.data⟩).data = [] := by
      cases hn : (normalizeForSearch ⟨trimChars q.data⟩).data with
      | nil => rfl
      | cons c cs => rw [hn] at h2; simp [List.isEmpty] at h2
    rw [hn]
    simp [splitRuns, splitRunsAux]
  · simp [List.mem_filter, List.all_eq_true]

/-- C7: search-filter AND semantics.  An option survives
`filterZoneOptions` exactly when its precomputed normalized haystack
contains every whitespace token of the normalized query as a substring;
concretely, in an option list containing Europe/Rome (whose haystack
embeds its UTC+2 offset text), the queries "rome" and "utc+2" each keep
the Rome option while the two-token query "asia tokyo" excludes it. -/
theorem c7_filter_and_semantics :
    (∀ (opts : List ZoneOption) (q : String) (o : ZoneOption),
      o ∈ filterZoneOptions opts q ↔
        o ∈ opts ∧ ∀ t ∈ queryTokens q, hasSubstr o.searchHay.data t = true) ∧
    romeOption ∈ filterZoneOptions c7Options "rome" ∧
    romeOption ∈ filterZoneOptions c7Options "utc+2" ∧
    romeOption ∉ filterZoneOptions c7Options "asia tokyo" :=
  ⟨filterZoneOptions_mem, by decide, by decide, by decide⟩
